import Mathlib

/-!
Verification development for the discovery/light-server core of this
go-ethereum tree.  The Go sources are shallowly embedded: Go maps become
association lists over natural-number keys (iteration modelled in list
order), machine integers become naturals with explicit `% 2^32` / `% 2^64`
where overflow matters, monotonic-clock reads become explicit `tm`
parameters, and operations that can panic or hang in Go return `Option`
(`none` = no resulting state).  Floating-point arithmetic (`float64`) is
idealised as exact arithmetic over `ℚ` (and `ℝ` with `Real.exp` where the
code calls `math.Exp`), with `uint64(...)` conversions modelled as floors.
-/

namespace S2P

/-- Association-list lookup, first match wins (models a Go map read). -/
def alookup {α : Type} (k : ℕ) : List (ℕ × α) → Option α
  | [] => none
  | (a, v) :: l => if a = k then some v else alookup k l

/-- Association-list key removal (models Go `delete`, a no-op on a missing key). -/
def aerase {α : Type} (k : ℕ) (l : List (ℕ × α)) : List (ℕ × α) :=
  l.filter (fun p => p.1 != k)

/-- Association-list write (models a Go map assignment). -/
def ainsert {α : Type} (k : ℕ) (v : α) (l : List (ℕ × α)) : List (ℕ × α) :=
  (k, v) :: aerase k l

/-- Keys of an association list. -/
def akeys {α : Type} (l : List (ℕ × α)) : List ℕ := l.map (fun p => p.1)

/-- Big-endian byte encoding of `v` into `w` bytes (`binary.BigEndian.PutUint64`
truncated to the low `8·w` bits; the source always uses `w = 8`). -/
def beBytes : ℕ → ℕ → List ℕ
  | 0, _ => []
  | w + 1, v => beBytes w (v / 256) ++ [v % 256]

/-- Big-endian byte decoding (`binary.BigEndian.Uint64`). -/
def beVal (l : List ℕ) : ℕ := l.foldl (fun a b => a * 256 + b) 0

end S2P

namespace LesSrv

open S2P

/-- Embedding of `linReg` from `les/server.go`.  The four `float64` sums are
represented by their 64-bit IEEE-754 bit patterns (naturals `< 2^64`), which
is faithful for `toBytes`/`linRegFromBytes`: Go's `math.Float64bits` and
`math.Float64frombits` are mutually inverse bit casts, so the byte codec
never interprets the float values. -/
structure linReg where
  sumX : ℕ
  sumY : ℕ
  sumXX : ℕ
  sumXY : ℕ
  cnt : ℕ
  deriving DecidableEq, Repr

/-- Embedding of `linReg.toBytes` (les/server.go:149-157): the four sums as
IEEE-754 big-endian uint64 bitcasts, then `cnt` big-endian. -/
def linReg.toBytes (l : linReg) : List ℕ :=
  beBytes 8 l.sumX ++ beBytes 8 l.sumY ++ beBytes 8 l.sumXX ++
    beBytes 8 l.sumXY ++ beBytes 8 l.cnt

/-- Embedding of `linRegFromBytes` (les/server.go:159-170): `nil` (here `none`)
unless the input is exactly 40 bytes. -/
def linRegFromBytes (data : List ℕ) : Option linReg :=
  if data.length = 40 then
    some { sumX := beVal (data.take 8)
           sumY := beVal ((data.drop 8).take 8)
           sumXX := beVal ((data.drop 16).take 8)
           sumXY := beVal ((data.drop 24).take 8)
           cnt := beVal ((data.drop 32).take 8) }
  else none

/-- Concrete 40-byte blob used as a round-trip witness input. -/
def c9bytes : List ℕ := (List.range 40).map fun i => (7 * i + 3) % 256

end LesSrv

namespace LesCht

open S2P

/-- Value stored in the canonical hash trie for one block number: the
canonical hash and the total difficulty (`light.ChtNode`).  Hashes and TDs
are abstracted to naturals; the RLP encoding of the pair is injective, so a
trie over the pairs is equivalent to a trie over the encoded bytes. -/
structure ChtNode where
  hash : ℕ
  td : ℕ
  deriving DecidableEq, Repr

/-- A committed CHT, modelled by its content: an association list from block
number (the 8-byte big-endian key `uint64_be(n)` is injective in `n`) to the
`ChtNode` value.  The Merkle root determines the trie content, so a stored
root is modelled as the content it commits to. -/
abbrev ChtTrie := List (ℕ × ChtNode)

/-- Read-only chain store used by `makeCht` (`core.GetCanonicalHash`,
`core.GetTd`); `none` models a missing value (the zero hash / nil TD on
which the Go code panics). -/
structure ChtChain where
  canonicalHash : ℕ → Option ℕ
  td : ℕ → Option ℕ

/-- The CHT-related database state: the `LastChtNumber` cell (`none` when the
8-byte value is absent) and the roots stored under `cht || uint64_be(k)`. -/
structure ChtDb where
  lastChtNum : Option ℕ
  roots : List (ℕ × ChtTrie)

/-- The value `makeCht` inserts for block `num`: `none` when the canonical
hash or the TD is missing (the Go code panics in that case). -/
def chtNodeAt (ch : ChtChain) (num : ℕ) : Option ChtNode :=
  (ch.canonicalHash num).bind fun h => (ch.td num).map fun d => { hash := h, td := d }

/-- The insertion loop of `makeCht` (les/server.go:355-371): update the seed
trie with entries for block numbers `start, start+1, ..., start+m-1`;
`none` models the panic on a missing canonical hash or TD. -/
def chtInsertFrom (ch : ChtChain) (start : ℕ) (m : ℕ) (seed : ChtTrie) : Option ChtTrie :=
  (List.range m).foldlM
    (fun tr i => (chtNodeAt ch (start + i)).map fun v => ainsert (start + i) v tr) seed

/-- Embedding of `makeCht` (les/server.go:325-386), parameterised by the CHT
frequency `F` (`light.ChtFrequency`, defined outside this tree; the spec
fixes `chtConfirmations = F/2`).  The head number is passed explicitly
(`GetHeadBlockHash`/`GetBlockNumber`).  A missing previous root makes
`getChtRoot` return the zero hash, on which `trie.New` yields an empty trie,
hence the `getD []`.  `trie.Commit` failures (database write errors) are not
modelled; the model database never fails. -/
def makeCht (F : ℕ) (ch : ChtChain) (headNum : ℕ) (db : ChtDb) : Option (ChtDb × Bool) :=
  let chtConfirmations := F / 2
  let newChtNum := if headNum > chtConfirmations then (headNum - chtConfirmations) / F else 0
  let lastChtNum := db.lastChtNum.getD 0
  if newChtNum ≤ lastChtNum then some (db, false)
  else
    let seed : ChtTrie := if lastChtNum > 0 then (alookup lastChtNum db.roots).getD [] else []
    match chtInsertFrom ch (lastChtNum * F) F seed with
    | none => none
    | some t =>
        let k := lastChtNum + 1
        some ({ lastChtNum := some k, roots := ainsert k t db.roots }, k < newChtNum)

/-- CHT database states reachable by the builder loop from an empty database,
for a fixed chain content (the head number may differ between steps). -/
inductive ChtReach (F : ℕ) (ch : ChtChain) : ChtDb → Prop where
  | init : ChtReach F ch { lastChtNum := none, roots := [] }
  | step (db db' : ChtDb) (headNum : ℕ) (more : Bool) :
      ChtReach F ch db → makeCht F ch headNum db = some (db', more) → ChtReach F ch db'

/-- Invariant of reachable CHT databases: stored keys are exactly
`1 .. lastChtNum`, and the root stored under key `k` commits exactly the
canonical entries of the block range `[0, k·F)`. -/
def ChtInv (F : ℕ) (ch : ChtChain) (db : ChtDb) : Prop :=
  (∀ k t, alookup k db.roots = some t →
      (1 ≤ k ∧ k ≤ db.lastChtNum.getD 0) ∧
      (∀ n, alookup n t = if n < k * F then chtNodeAt ch n else none) ∧
      (∀ n, n < k * F → (chtNodeAt ch n).isSome)) ∧
  (∀ k, 1 ≤ k → k ≤ db.lastChtNum.getD 0 → (alookup k db.roots).isSome)

/-- Claim C1 exactly as stated by the spec: whenever a `makeCht` call
completes a CHT whose root it persists under key `chtPrefix || uint64_be(k)`,
the chain head is at least `(k+1)·F + F/2` and that root commits exactly the
canonical headers of the block range `[k·F, (k+1)·F)` (one entry per block
number in the range). -/
def chtClaimStated (F : ℕ) (ch : ChtChain) : Prop :=
  ∀ headNum db db' more, makeCht F ch headNum db = some (db', more) →
    ∀ k, (alookup k db'.roots).isSome → alookup k db.roots = none →
      ((k + 1) * F + F / 2 ≤ headNum ∧
        ∀ t, alookup k db'.roots = some t →
          (∀ n v, alookup n t = some v →
              k * F ≤ n ∧ n < (k + 1) * F ∧
              ch.canonicalHash n = some v.hash ∧ ch.td n = some v.td) ∧
          (∀ n, k * F ≤ n → n < (k + 1) * F → alookup n t = chtNodeAt ch n))

/-- Concrete chain used for counterexamples and witnesses: every block `n`
has canonical hash `n + 1` and total difficulty `n + 1`. -/
def chtChainEx : ChtChain :=
  { canonicalHash := fun n => some (n + 1), td := fun n => some (n + 1) }

/-- The empty CHT database. -/
def chtDbEmpty : ChtDb := { lastChtNum := none, roots := [] }

/-- The database produced by `makeCht` with `F = 4` on `chtChainEx` from the
empty database at head number 6: one CHT, persisted under key 1, covering
blocks 0..3. -/
def chtDbEx1 : ChtDb :=
  { lastChtNum := some 1,
    roots := [(1, [(3, { hash := 4, td := 4 }), (2, { hash := 3, td := 3 }),
                   (1, { hash := 2, td := 2 }), (0, { hash := 1, td := 1 })])] }

end LesCht

namespace Disc

open S2P

/-- Constants from `p2p/discover/topic.go` (lines 34-35, 278, 302-310).  All
durations are monotonic-clock nanoseconds. -/
def MaxEntries : ℕ := 10000

/-- Per-topic FIFO capacity (topic.go:35). -/
def MaxEntriesPerTopic : ℕ := 50

/-- One minute in nanoseconds (`uint64(time.Minute)`, topic.go:303). -/
def minWaitPeriod : ℕ := 60 * 1000000000

/-- Admission window in seconds (topic.go:304). -/
def regTimeWindow : ℤ := 10

/-- Ten minutes in nanoseconds (topic.go:305). -/
def avgNoTicketTimeout : ℕ := 600 * 1000000000

/-- Target average interval between incoming ad requests (topic.go:307):
ten minutes divided by `MaxEntriesPerTopic`. -/
def wcTargetRegInterval : ℕ := 600 * 1000000000 / MaxEntriesPerTopic

/-- Time constant of the wait-control loop (topic.go:309). -/
def wcTimeConst : ℕ := 600 * 1000000000

/-- Garbage-collection interval (topic.go:278). -/
def gcInterval : ℕ := 60 * 1000000000

/-- `topicEntry` (topic.go:39-44): topics and nodes are abstracted to
natural-number identifiers; `expire` is monotonic nanoseconds. -/
structure topicEntry where
  topic : ℕ
  fifoIdx : ℕ
  node : ℕ
  expire : ℕ
  deriving DecidableEq, Repr

/-- `waitControlLoop` state (topic.go:313-315); Go zero value is
`lastIncoming = waitPeriod = 0`. -/
structure waitControlLoop where
  lastIncoming : ℕ
  waitPeriod : ℕ
  deriving DecidableEq, Repr

/-- The model is parameterised by `wex : ℕ → ℕ → ℕ`, standing for the Go
float64 computation `uint64(float64(waitPeriod) * math.Exp((wcTargetRegInterval
- period)/wcTimeConst))` in `nextWaitPeriod` (topic.go:324); `Disc.wexFl`
below is that function with `float64` idealised as `ℝ`.  Table-level theorems
are proved for every `wex`. -/
def nextWaitPeriodW (wex : ℕ → ℕ → ℕ) (w : waitControlLoop) (tm : ℕ) : ℕ :=
  let wp := wex w.waitPeriod (tm - w.lastIncoming)
  if wp < minWaitPeriod then minWaitPeriod else wp

/-- `waitControlLoop.registered` (topic.go:317-320). -/
def registeredW (wex : ℕ → ℕ → ℕ) (w : waitControlLoop) (tm : ℕ) : waitControlLoop :=
  { waitPeriod := nextWaitPeriodW wex w tm, lastIncoming := tm }

/-- `waitControlLoop.hasMinimumWaitPeriod` (topic.go:331-333). -/
def hasMinimumWaitPeriod (wex : ℕ → ℕ → ℕ) (w : waitControlLoop) (tm : ℕ) : Bool :=
  nextWaitPeriodW wex w tm == minWaitPeriod

/-- The exact `nextWaitPeriod` multiplier with `float64` idealised as `ℝ`:
`uint64(x)` on a non-negative float is the floor. -/
noncomputable def wexFl (w period : ℕ) : ℕ :=
  Nat.floor ((w : ℝ) * Real.exp (((wcTargetRegInterval : ℝ) - (period : ℝ)) / (wcTimeConst : ℝ)))

/-- `topicInfo` (topic.go:46-51).  The priority-queue item (`rqItem`) lives in
the table-level `requested` list. -/
structure topicInfo where
  entries : List (ℕ × topicEntry)
  fifoHead : ℕ
  fifoTail : ℕ
  wcl : waitControlLoop
  deriving DecidableEq, Repr

/-- `nodeInfo` (topic.go:63-67); ticket serials are `uint32`, kept `< 2^32`. -/
structure nodeInfo where
  entries : List (ℕ × topicEntry)
  noTicketUntil : ℕ
  lastIssuedTicket : ℕ
  lastUsedTicket : ℕ
  deriving DecidableEq, Repr

/-- `TopicTable` (topic.go:69-77).  `db` holds the per-node ticket counters
(`nodeDB` adapter); `requested` models the `topicRequestQueue` min-heap as the
multiset of its items `(topic, priority)` in push order: the heap root is a
minimum-priority item, modelled deterministically as the first minimal one
(`container/heap` leaves the order among equal priorities unspecified). -/
structure TopicTable where
  db : List (ℕ × (ℕ × ℕ))
  nodes : List (ℕ × nodeInfo)
  topics : List (ℕ × topicInfo)
  globalEntries : ℕ
  requested : List (ℕ × ℕ)
  requestCnt : ℕ
  lastGarbageCollection : ℕ
  deriving DecidableEq, Repr

/-- Modelled from the spec: the node-DB adapter `fetchTopicRegTickets`
(`p2p/discover/database.go` is not in this tree); a node with no stored
counters yields `(0, 0)`. -/
def fetchTopicRegTickets (db : List (ℕ × (ℕ × ℕ))) (node : ℕ) : ℕ × ℕ :=
  (alookup node db).getD (0, 0)

/-- `getOrNewTopic` (topic.go:90-105): a fresh topic gets empty state, a
zero-valued wait-control loop, and a heap item with priority `requestCnt`. -/
def getOrNewTopic (t : TopicTable) (topic : ℕ) : TopicTable × topicInfo :=
  match alookup topic t.topics with
  | some ti => (t, ti)
  | none =>
      let ti : topicInfo :=
        { entries := [], fifoHead := 0, fifoTail := 0,
          wcl := { lastIncoming := 0, waitPeriod := 0 } }
      ({ t with topics := ainsert topic ti t.topics,
                requested := t.requested ++ [(topic, t.requestCnt)] }, ti)

/-- `checkDeleteTopic` (topic.go:108-113).  The Go code assumes the topic is
present (a missing topic would be a nil dereference); every call site in the
source guarantees presence, and the model leaves the table unchanged there. -/
def checkDeleteTopic (wex : ℕ → ℕ → ℕ) (t : TopicTable) (topic : ℕ) (tm : ℕ) : TopicTable :=
  match alookup topic t.topics with
  | none => t
  | some ti =>
      if ti.entries.isEmpty && hasMinimumWaitPeriod wex ti.wcl tm then
        { t with topics := aerase topic t.topics }
      else t

/-- `getOrNewNode` (topic.go:115-127): a fresh node loads its ticket counters
from the node database. -/
def getOrNewNode (t : TopicTable) (node : ℕ) : TopicTable × nodeInfo :=
  match alookup node t.nodes with
  | some n => (t, n)
  | none =>
      let iu := fetchTopicRegTickets t.db node
      let n : nodeInfo :=
        { entries := [], noTicketUntil := 0,
          lastIssuedTicket := iu.1, lastUsedTicket := iu.2 }
      ({ t with nodes := ainsert node n t.nodes }, n)

/-- `checkDeleteNode` (topic.go:130-135); like `checkDeleteTopic` it assumes
presence (nil dereference otherwise), and call sites that can violate this
are modelled as `none` at the call site. -/
def checkDeleteNode (t : TopicTable) (node : ℕ) (tm : ℕ) : TopicTable :=
  match alookup node t.nodes with
  | none => t
  | some n =>
      if n.entries.isEmpty && decide (n.noTicketUntil < tm) then
        { t with nodes := aerase node t.nodes }
      else t

/-- `storeTicket` (topic.go:137-140): persist both ticket counters
(`updateTopicRegTickets`, modelled from the spec as a keyed write). -/
def storeTicket (t : TopicTable) (node : ℕ) : TopicTable :=
  let p := getOrNewNode t node
  { p.1 with db := ainsert node (p.2.lastIssuedTicket, p.2.lastUsedTicket) p.1.db }

/-- `deleteEntry` (topic.go:206-219).  `none` models the nil dereference when
the entry's node or topic is no longer in the table (reachable only through
the orphaned-object corner states).  `heap.Remove` drops the topic's items
from `requested`. -/
def deleteEntry (wex : ℕ → ℕ → ℕ) (t : TopicTable) (e : topicEntry) (tm : ℕ) :
    Option TopicTable :=
  match alookup e.node t.nodes with
  | none => none
  | some n =>
      let n' := { n with entries := aerase e.topic n.entries }
      let t1 := { t with nodes := ainsert e.node n' t.nodes }
      let t2 := if n'.entries.isEmpty then checkDeleteNode t1 e.node tm else t1
      match alookup e.topic t2.topics with
      | none => none
      | some te =>
          let te' := { te with entries := aerase e.fifoIdx te.entries }
          let t3 := { t2 with topics := ainsert e.topic te' t2.topics }
          let t4 :=
            if te'.entries.isEmpty then
              let t4a := checkDeleteTopic wex t3 e.topic tm
              { t4a with requested := t4a.requested.filter (fun p => p.1 != e.topic) }
            else t3
          some { t4 with globalEntries := t4.globalEntries - 1 }

/-- First minimal-priority item of the request queue (the heap root). -/
def heapMinItem (l : List (ℕ × ℕ)) : Option (ℕ × ℕ) :=
  l.foldl (fun acc p =>
    match acc with
    | none => some p
    | some q => if p.2 < q.2 then some p else some q) none

/-- The lazy-popping loop of `leastRequested` (topic.go:196-198), with fuel
bounded by the queue length. -/
def popStaleLoop (fuel : ℕ) (t : TopicTable) : TopicTable :=
  match fuel with
  | 0 => t
  | fuel + 1 =>
      match heapMinItem t.requested with
      | none => t
      | some it =>
          if (alookup it.1 t.topics).isSome then t
          else popStaleLoop fuel { t with requested := t.requested.erase it }

/-- `topicInfo.getFifoTail` (topic.go:54-61): first present index at or above
`fifoTail`; `none` models the Go infinite loop on an empty FIFO. -/
def getFifoTail (te : topicInfo) : Option (topicEntry × topicInfo) :=
  match heapMinItem ((te.entries.filter (fun p => te.fifoTail ≤ p.1)).map
      (fun p => (p.1, p.1))) with
  | none => none
  | some it =>
      match alookup it.1 te.entries with
      | none => none
      | some e => some (e, { te with fifoTail := it.1 + 1 })

/-- `leastRequested` (topic.go:195-203): pop stale heap items, then take the
FIFO tail of the minimum-priority topic.  `none` models the Go nil
dereference (empty heap) or infinite loop (empty FIFO at the heap root). -/
def leastRequested (t : TopicTable) : Option (topicEntry × TopicTable) :=
  let t1 := popStaleLoop t.requested.length t
  match heapMinItem t1.requested with
  | none => none
  | some it =>
      match alookup it.1 t1.topics with
      | none => none
      | some te =>
          match getFifoTail te with
          | none => none
          | some p => some (p.1, { t1 with topics := ainsert it.1 p.2 t1.topics })

/-- One iteration of the insertion loop of `AddEntries` (topic.go:168-191)
for a single topic.  Go mutates the `topicInfo` through the pointer obtained
from `getOrNewTopic`; if the global-cap eviction deletes the topic itself
(`checkDeleteTopic` inside `deleteEntry`), the subsequent insertion goes into
the orphaned object and is invisible in the table maps, while `globalEntries`
is still incremented — the model mirrors this exactly. -/
def addEntriesStep (wex : ℕ → ℕ → ℕ) (t : TopicTable) (node : ℕ) (topic : ℕ)
    (expiry tm : ℕ) : Option TopicTable :=
  let p1 := getOrNewTopic t topic
  let t1 := p1.1
  let te := p1.2
  -- per-topic cap eviction
  let capStep : Option (TopicTable × topicInfo) :=
    if te.entries.length = MaxEntriesPerTopic then
      match getFifoTail te with
      | none => none
      | some q =>
          let t2 := { t1 with topics := ainsert topic q.2 t1.topics }
          (deleteEntry wex t2 q.1 tm).map fun t3 =>
            (t3, (alookup topic t3.topics).getD
              { q.2 with entries := aerase q.1.fifoIdx q.2.entries })
    else some (t1, te)
  capStep.bind fun p2 =>
    let t3 := p2.1
    let te3 := p2.2
    -- global cap eviction
    let globStep : Option (TopicTable × topicInfo) :=
      if t3.globalEntries = MaxEntries then
        match leastRequested t3 with
        | none => none
        | some q =>
            (deleteEntry wex q.2 q.1 tm).map fun t5 =>
              (t5, match alookup topic t5.topics with
                   | some tev => tev
                   | none =>
                       if q.1.topic = topic then
                         { te3 with entries := aerase q.1.fifoIdx te3.entries,
                                    fifoTail := q.1.fifoIdx + 1 }
                       else te3)
      else some (t3, te3)
    globStep.bind fun p3 =>
      let t5 := p3.1
      let te5 := p3.2
      let fifoIdx := te5.fifoHead
      let entry : topicEntry :=
        { topic := topic, fifoIdx := fifoIdx, node := node, expire := tm + expiry }
      let te6 : topicInfo :=
        { te5 with fifoHead := fifoIdx + 1,
                   entries := ainsert fifoIdx entry te5.entries,
                   wcl := registeredW wex te5.wcl tm }
      let t6 := if (alookup topic t5.topics).isSome then
                  { t5 with topics := ainsert topic te6 t5.topics }
                else t5
      let t7 := match alookup node t6.nodes with
                | some ncur =>
                    let ncur2 := { ncur with entries := ainsert topic entry ncur.entries }
                    { t6 with nodes := ainsert node ncur2 t6.nodes }
                | none => t6
      some { t7 with globalEntries := t7.globalEntries + 1 }

/-- The insertion loop of `AddEntries` over the topic list. -/
def addEntriesLoop (wex : ℕ → ℕ → ℕ) (t : TopicTable) (node : ℕ)
    (expiry tm : ℕ) : List ℕ → Option TopicTable
  | [] => some t
  | topic :: rest =>
      (addEntriesStep wex t node topic expiry tm).bind fun t' =>
        addEntriesLoop wex t' node expiry tm rest

/-- The clearing loop of `AddEntries` (topic.go:163-165): delete every
existing entry of the node (map iteration in list order). -/
def clearLoop (wex : ℕ → ℕ → ℕ) (t : TopicTable) (tm : ℕ) :
    List topicEntry → Option TopicTable
  | [] => some t
  | e :: es => (deleteEntry wex t e tm).bind fun t' => clearLoop wex t' tm es

/-- `AddEntries` (topic.go:160-192). -/
def AddEntries (wex : ℕ → ℕ → ℕ) (t : TopicTable) (node : ℕ) (topicList : List ℕ)
    (expiry tm : ℕ) : Option TopicTable :=
  let p := getOrNewNode t node
  (clearLoop wex p.1 tm (p.2.entries.map Prod.snd)).bind fun t2 =>
    addEntriesLoop wex t2 node expiry tm topicList

/-- Inner entry-expiry loop of `collectGarbage` for one node. -/
def gcEntriesLoop (wex : ℕ → ℕ → ℕ) (t : TopicTable) (tm : ℕ) :
    List topicEntry → Option TopicTable
  | [] => some t
  | e :: es =>
      if e.expire ≤ tm then
        (deleteEntry wex t e tm).bind fun t' => gcEntriesLoop wex t' tm es
      else gcEntriesLoop wex t tm es

/-- Node loop of `collectGarbage` (topic.go:287-295).  The trailing
`checkDeleteNode` dereferences the node unconditionally; if the expiry loop
already deleted it (last entry expired with `noTicketUntil` in the past) the
Go code panics on nil — modelled as `none`. -/
def gcNodesLoop (wex : ℕ → ℕ → ℕ) (tm : ℕ) (t : TopicTable) :
    List ℕ → Option TopicTable
  | [] => some t
  | node :: rest =>
      match alookup node t.nodes with
      | none => gcNodesLoop wex tm t rest
      | some n =>
          (gcEntriesLoop wex t tm (n.entries.map Prod.snd)).bind fun t' =>
            match alookup node t'.nodes with
            | none => none
            | some _ => gcNodesLoop wex tm (checkDeleteNode t' node tm) rest

/-- Topic sweep of `collectGarbage` (topic.go:297-299). -/
def gcTopicsLoop (wex : ℕ → ℕ → ℕ) (tm : ℕ) (t : TopicTable) : List ℕ → TopicTable
  | [] => t
  | topic :: rest => gcTopicsLoop wex tm (checkDeleteTopic wex t topic tm) rest

/-- `collectGarbage` (topic.go:280-300): runs at most once per `gcInterval`. -/
def collectGarbage (wex : ℕ → ℕ → ℕ) (t : TopicTable) (tm : ℕ) : Option TopicTable :=
  if tm - t.lastGarbageCollection < gcInterval then some t
  else
    let t1 := { t with lastGarbageCollection := tm }
    (gcNodesLoop wex tm t1 (akeys t1.nodes)).bind fun t2 =>
      some (gcTopicsLoop wex tm t2 (akeys t2.topics))

/-- `GetEntries` (topic.go:142-158): snapshot of the topic's advertisers and
a priority bump to the fresh `requestCnt`.  Heap-item priority update is
modelled as a keyed replace (`topicRequestQueue.update`). -/
def GetEntries (wex : ℕ → ℕ → ℕ) (t0 : TopicTable) (topic : ℕ) (tm : ℕ) :
    Option (TopicTable × List ℕ) :=
  (collectGarbage wex t0 tm).bind fun t =>
    match alookup topic t.topics with
    | none => some (t, [])
    | some te =>
        let cnt := t.requestCnt + 1
        some ({ t with requestCnt := cnt,
                       requested := t.requested.map fun p =>
                         if p.1 = topic then (p.1, cnt) else p },
              te.entries.map fun p => p.2.node)

/-- The `int32(currTime - w)` computation of `useTicket` (topic.go:238):
`uint32` subtraction reinterpreted as a signed 32-bit value. -/
def relTime32 (currTime w : ℕ) : ℤ :=
  let d : ℕ := (currTime % 2 ^ 32 + 2 ^ 32 - w % 2 ^ 32) % 2 ^ 32
  if d < 2 ^ 31 then (d : ℤ) else (d : ℤ) - 2 ^ 32

/-- Admission test of `useTicket` for one `(topic, waitPeriod)` pair
(topic.go:237-243): the declared timestamp must fall in the window
`[-1, regTimeWindow + 1]` and the node must have no active entry. -/
def admitOk (n : nodeInfo) (currTime topic w : ℕ) : Bool :=
  decide (-1 ≤ relTime32 currTime w) && decide (relTime32 currTime w ≤ regTimeWindow + 1) &&
    (alookup topic n.entries).isNone

/-- The `regTopics` list built by `useTicket` from the zipped
`(topic, waitPeriod)` pairs (Go iterates `waitPeriods` and indexes `topics`;
the lengths are assumed equal, topic.go:221). -/
def regTopicsOf (n : nodeInfo) (currTime : ℕ) (pairs : List (ℕ × ℕ)) : List ℕ :=
  (pairs.filter fun p => admitOk n currTime p.1 p.2).map Prod.fst

/-- `useTicket` (topic.go:222-251).  `ntt` is the sampled `noTicketTimeout()`
exponential variate (randomness passed as an oracle). -/
def useTicket (wex : ℕ → ℕ → ℕ) (t0 : TopicTable) (node serialNo : ℕ)
    (topicList : List ℕ) (waitPeriods : List ℕ) (expiry tm ntt : ℕ) :
    Option (TopicTable × Bool) :=
  (collectGarbage wex t0 tm).bind fun t =>
    let p := getOrNewNode t node
    let t1 := p.1
    let n := p.2
    if serialNo % 2 ^ 32 < n.lastUsedTicket then some (t1, false)
    else
      let upd := decide (serialNo % 2 ^ 32 ≠ n.lastUsedTicket)
      let n2 := if upd then { n with lastUsedTicket := serialNo % 2 ^ 32 } else n
      let t2 := if upd then
                  storeTicket { t1 with nodes := ainsert node n2 t1.nodes } node
                else t1
      let currTime := (tm / 1000000000) % 2 ^ 32
      let regTopics := regTopicsOf n2 currTime (topicList.zip waitPeriods)
      if regTopics.isEmpty then some (t2, false)
      else
        (AddEntries wex t2 node regTopics expiry tm).bind fun t3 =>
          match alookup node t3.nodes with
          | some n3 =>
              some ({ t3 with nodes :=
                        ainsert node { n3 with noTicketUntil := tm + ntt } t3.nodes },
                    true)
          | none => some (t3, true)

/-- `getTicket` (topic.go:253-276).  Returns `(table, serial, currTime,
waitUntil)`; note the Go named return `currTime` is assigned before the
`noTicketUntil` early return. -/
def getTicket (wex : ℕ → ℕ → ℕ) (t0 : TopicTable) (node : ℕ) (topicList : List ℕ)
    (tm : ℕ) : Option (TopicTable × ℕ × ℕ × List ℕ) :=
  (collectGarbage wex t0 tm).bind fun t =>
    let currTime := (tm / 1000000000) % 2 ^ 32
    let p := getOrNewNode t node
    let t1 := p.1
    let n := p.2
    if n.noTicketUntil > tm then some (t1, 0, currTime, [])
    else
      let n2 := { n with lastIssuedTicket := (n.lastIssuedTicket + 1) % 2 ^ 32 }
      let t2 := storeTicket { t1 with nodes := ainsert node n2 t1.nodes } node
      let waitUntil := topicList.map fun topic =>
        let w := match alookup topic t2.topics with
                 | some te => te.wcl.waitPeriod
                 | none => minWaitPeriod
        (currTime + w / 1000000000) % 2 ^ 32
      some (t2, n2.lastIssuedTicket, currTime, waitUntil)

/-- The empty topic table over an empty node database. -/
def emptyTable : TopicTable :=
  { db := [], nodes := [], topics := [], globalEntries := 0,
    requested := [], requestCnt := 0, lastGarbageCollection := 0 }

/-- Node-info record of a freshly seen node (no entries, zero counters). -/
def freshNodeInfo : nodeInfo :=
  { entries := [], noTicketUntil := 0, lastIssuedTicket := 0, lastUsedTicket := 0 }

/-- Zero instantiation of the float oracle, used for concrete runs.  The runs
below only branch on it through `hasMinimumWaitPeriod` applied to wait-control
states with `waitPeriod ∈ {0, minWaitPeriod}` after an idle period of at
least 12s, where the real exponential (`wexFl`) also yields a value below
`minWaitPeriod` (the multiplier `exp((12s - period)/10min)` is `≤ 1`). -/
def wex0 : ℕ → ℕ → ℕ := fun _ _ => 0

/-- Result table of the C2 counterexample run (`useTicket` returning `false`
after persisting `lastUsedTicket = 5`). -/
def c2table : TopicTable :=
  { db := [(7, (0, 5))],
    nodes := [(7, { entries := [], noTicketUntil := 0, lastIssuedTicket := 0,
                    lastUsedTicket := 5 })],
    topics := [], globalEntries := 0, requested := [], requestCnt := 0,
    lastGarbageCollection := 100000000000 }

/-- Table with one node whose `noTicketUntil` is in the far future (C7). -/
def c7table : TopicTable :=
  { db := [],
    nodes := [(7, { entries := [], noTicketUntil := 10 ^ 18, lastIssuedTicket := 0,
                    lastUsedTicket := 0 })],
    topics := [], globalEntries := 0, requested := [], requestCnt := 0,
    lastGarbageCollection := 0 }

/-- Entry of node 1 for topic 10, used by the C8 counterexample. -/
def c8entry : topicEntry := { topic := 10, fifoIdx := 0, node := 1, expire := 10 ^ 15 }

/-- Start state of the C8 counterexample: node 1 advertises topic 10, its
`noTicketUntil` has expired. -/
def c8start : TopicTable :=
  { db := [],
    nodes := [(1, { entries := [(10, c8entry)], noTicketUntil := 0,
                    lastIssuedTicket := 0, lastUsedTicket := 0 })],
    topics := [(10, { entries := [(0, c8entry)], fifoHead := 1, fifoTail := 0,
                      wcl := { lastIncoming := 0, waitPeriod := 0 } })],
    globalEntries := 1, requested := [(10, 0)], requestCnt := 0,
    lastGarbageCollection := 0 }

/-- State after a non-orphaning first `useTicket` call from the empty table
(node 7 registers topic 3); used by the C8 witness. -/
def c8mid : TopicTable :=
  { db := [(7, (0, 1))],
    nodes := [(7, { entries := [(3, { topic := 3, fifoIdx := 0, node := 7,
                                      expire := 100000001000 })],
                    noTicketUntil := 1000100000000000,
                    lastIssuedTicket := 0, lastUsedTicket := 1 })],
    topics := [(3, { entries := [(0, { topic := 3, fifoIdx := 0, node := 7,
                                       expire := 100000001000 })],
                     fifoHead := 1, fifoTail := 0,
                     wcl := { lastIncoming := 100000000000,
                              waitPeriod := 60000000000 } })],
    globalEntries := 1, requested := [(3, 0)], requestCnt := 0,
    lastGarbageCollection := 100000000000 }

/-- Sum over topics of the per-topic entry counts (the quantity claim C3
equates with `globalEntries`). -/
def topicSum (t : TopicTable) : ℕ := (t.topics.map fun p => p.2.entries.length).sum

/-- Number of entries of topic `τ` in the crafted full table below: topic 0
has one entry, topics 1..199 are full, topic 200 has 49. -/
def c3count (τ : ℕ) : ℕ := if τ = 0 then 1 else if τ ≤ 199 then 50 else 49

/-- Entry of node `ν` in topic `τ` for the crafted full table. -/
def c3entry (τ ν : ℕ) : topicEntry :=
  { topic := τ, fifoIdx := ν, node := ν, expire := 10 ^ 15 }

/-- Topic state in the crafted full table; the wait-control loop sits exactly
at `minWaitPeriod` (one registration long ago). -/
def c3topicInfo (τ : ℕ) : topicInfo :=
  { entries := (List.range (c3count τ)).map fun ν => (ν, c3entry τ ν),
    fifoHead := c3count τ, fifoTail := 0,
    wcl := { lastIncoming := 0, waitPeriod := minWaitPeriod } }

/-- Node state in the crafted full table. -/
def c3nodeInfo (ν : ℕ) : nodeInfo :=
  { entries := ((List.range 201).filter fun τ => ν < c3count τ).map
      fun τ => (τ, c3entry τ ν),
    noTicketUntil := 10 ^ 18, lastIssuedTicket := 0, lastUsedTicket := 0 }

/-- A full table (`globalEntries = MaxEntries = 10000 = topicSum`): 201
topics, topic 0 holding a single entry and sitting at the heap root
(priority 0, all others 1), 50 nodes. -/
def c3bigState : TopicTable :=
  { db := [],
    nodes := (List.range 50).map fun ν => (ν, c3nodeInfo ν),
    topics := (List.range 201).map fun τ => (τ, c3topicInfo τ),
    globalEntries := 10000,
    requested := (0, 0) :: ((List.range 200).map fun i => (i + 1, 1)),
    requestCnt := 2, lastGarbageCollection := 0 }

/-- Spec-side restatement of `getTicket` following the amended claim C7: after
garbage collection, if the node's `noTicketUntil` is in the future the call
returns a zero serial and an empty wait list — but the true `currTime` — and
changes nothing beyond garbage collection and the node-record load; otherwise
it increments `lastIssuedTicket` (mod `2^32`), persists both counters for the
node, and returns, per topic, `currTime` plus the topic's wait period (or
`minWaitPeriod` for an unknown topic) in seconds. -/
def getTicketSpec (wex : ℕ → ℕ → ℕ) (t0 : TopicTable) (node : ℕ)
    (topicList : List ℕ) (tm : ℕ) : Option (TopicTable × ℕ × ℕ × List ℕ) :=
  (collectGarbage wex t0 tm).bind fun tg =>
    let p := getOrNewNode tg node
    let currTime := (tm / 1000000000) % 2 ^ 32
    if p.2.noTicketUntil > tm then some (p.1, 0, currTime, [])
    else
      let serial := (p.2.lastIssuedTicket + 1) % 2 ^ 32
      some ({ p.1 with
                nodes := ainsert node { p.2 with lastIssuedTicket := serial } p.1.nodes,
                db := ainsert node (serial, p.2.lastUsedTicket) p.1.db },
            serial, currTime,
            topicList.map fun topic =>
              (currTime +
                (match alookup topic p.1.topics with
                 | some te => te.wcl.waitPeriod
                 | none => minWaitPeriod) / 1000000000) % 2 ^ 32)

/-- Spec-side restatement of `useTicket` following the amended claim C2: on
the failure paths the only state changes are garbage collection, the
node-record load, and — when the serial strictly advances — recording and
persisting `lastUsedTicket`; no entry is registered and `noTicketUntil` is
untouched.  When the serial is out of order (`< lastUsedTicket`) nothing at
all changes beyond garbage collection and the node load.  Topics passing the
admission window are handed to `AddEntries` and `noTicketUntil` is set. -/
def useTicketSpec (wex : ℕ → ℕ → ℕ) (t0 : TopicTable) (node serialNo : ℕ)
    (topicList : List ℕ) (waitPeriods : List ℕ) (expiry tm ntt : ℕ) :
    Option (TopicTable × Bool) :=
  (collectGarbage wex t0 tm).bind fun tg =>
    let p := getOrNewNode tg node
    let currTime := (tm / 1000000000) % 2 ^ 32
    if serialNo % 2 ^ 32 < p.2.lastUsedTicket then some (p.1, false)
    else
      let n2 := { p.2 with lastUsedTicket := serialNo % 2 ^ 32 }
      let t2 := if serialNo % 2 ^ 32 = p.2.lastUsedTicket then p.1
                else { p.1 with
                         nodes := ainsert node n2 p.1.nodes,
                         db := ainsert node (p.2.lastIssuedTicket, serialNo % 2 ^ 32)
                           p.1.db }
      let regTopics := regTopicsOf n2 currTime (topicList.zip waitPeriods)
      if regTopics.isEmpty then some (t2, false)
      else
        (AddEntries wex t2 node regTopics expiry tm).bind fun t3 =>
          match alookup node t3.nodes with
          | some n3 =>
              some ({ t3 with nodes :=
                        ainsert node { n3 with noTicketUntil := tm + ntt } t3.nodes },
                    true)
          | none => some (t3, true)

end Disc

namespace TStore

open S2P

/-- Constants from `p2p/discover/ticket.go` (lines 31-44).  Durations are in
nanoseconds; float64 constants become exact rationals. -/
def ticketTimeBucketLen : ℕ := 60 * 1000000000

/-- Number of one-minute buckets in the coverage window (ticket.go:33). -/
def timeWindow : ℕ := 30

/-- keepTicketConst = 10 minutes (ticket.go:34). -/
def keepTicketConst : ℕ := 600 * 1000000000

/-- keepTicketExp = 5 minutes (ticket.go:35). -/
def keepTicketExp : ℕ := 300 * 1000000000

/-- maxRadius = `0xffffffffffffffff` (ticket.go:36). -/
def maxRadius : ℕ := 2 ^ 64 - 1

/-- minRadAverage (ticket.go:37). -/
def minRadAverage : ℕ := 100

/-- minRadStableAfter (ticket.go:38). -/
def minRadStableAfter : ℕ := 50

/-- targetWaitTime = 10 minutes (ticket.go:39). -/
def targetWaitTime : ℕ := 600 * 1000000000

/-- adjustRatio = 0.002 (ticket.go:40), as an exact rational. -/
def adjustRatioQ : ℚ := 1 / 500

/-- adjustCooldownStart = 0.1 (ticket.go:41). -/
def adjustCooldownStart : ℚ := 1 / 10

/-- adjustCooldownStep = 0.01 (ticket.go:42). -/
def adjustCooldownStep : ℚ := 1 / 100

/-- radiusExtendRatio = 1.5 (ticket.go:43), as an exact rational. -/
def radiusExtendQ : ℚ := 3 / 2

/-- The fields of `ticket` (ticket.go:57-70) that the store operations use.
`nodePf` is `binary.BigEndian.Uint64(node.sha[0:8])`, the node's 64-bit ID
prefix; `refCnt` is kept beside the owner map in the store (Go shares the
ticket by pointer).  Times are monotonic nanoseconds (`absTime`), which are
non-negative. -/
structure sticket where
  topics : List ℕ
  regTime : List ℕ
  serial : ℕ
  issueTime : ℕ
  node : ℕ
  nodePf : ℕ
  deriving DecidableEq, Repr

/-- `ticketRef` (ticket.go:73-76). -/
structure ticketRef where
  t : sticket
  idx : ℕ
  deriving DecidableEq, Repr

/-- `ticketRef.topicRegTime` (ticket.go:82-84). -/
def ticketRef.topicRegTime (r : ticketRef) : ℕ := r.t.regTime.getD r.idx 0

/-- `topicRadius` (ticket.go:485-492); `topicHashPf` is the high 64 bits of
`Keccak256(topic)`, supplied by an oracle since the hash is opaque. -/
structure topicRadius where
  topicHashPf : ℕ
  radius : ℕ
  adjustCooldown : ℚ
  converged : Bool
  intExtBalance : ℚ
  deriving DecidableEq, Repr

/-- `newTopicRadius` (ticket.go:494-505), with the Keccak prefix as input. -/
def newTopicRadius (hashPf : ℕ) : topicRadius :=
  { topicHashPf := hashPf, radius := maxRadius,
    adjustCooldown := adjustCooldownStart, converged := false, intExtBalance := 0 }

/-- `topicRadius.isInRadius` (ticket.go:507-514), on the node's ID prefix. -/
def isInRadius (r : topicRadius) (nodePf : ℕ) (extRadius : Bool) : Bool :=
  let dist := nodePf ^^^ r.topicHashPf
  if extRadius then decide ((dist : ℚ) < (r.radius : ℚ) * radiusExtendQ)
  else decide (dist < r.radius)

/-- `topicRadius.adjust` (ticket.go:543-600).  The multiplier sign comes from
the ticket's wait (`regTime - issueTime`) versus `targetWaitTime`;
`isInRadius` only drives the balance bookkeeping and the early-return guard.
float64 arithmetic is exact `ℚ` here, with `uint64(...)` as floor. -/
def topicRadius.adjust (r : topicRadius) (localTime : ℕ) (tk : ticketRef)
    (minRadius : ℕ) (minRadStable : Bool) : topicRadius :=
  let inr := isInRadius r tk.t.nodePf false
  let balanceStep : ℚ := if inr then radiusExtendQ - 1 else -1
  let stepSign : ℚ := if inr then 1 else -1
  if r.intExtBalance * stepSign > 3 then r
  else
    let r1 := { r with intExtBalance := r.intExtBalance + balanceStep }
    let wait : ℤ := (tk.t.regTime.getD tk.idx 0 : ℤ) - (tk.t.issueTime : ℤ)
    let adjust0 : ℚ := if wait > (targetWaitTime : ℤ) then 1 else -1
    let adj : ℚ := if r.converged then adjust0 * adjustRatioQ
                   else adjust0 * r.adjustCooldown
    let radQ : ℚ := (r.radius : ℚ) * (1 + adj)
    let newRadius : ℕ :=
      if radQ > (maxRadius : ℚ) then maxRadius
      else
        let rr := radQ.floor.toNat
        if rr < minRadius then minRadius else rr
    let r2 := { r1 with radius := newRadius }
    if !r.converged && (decide (adj > 0) ||
        (decide (newRadius = minRadius) && minRadStable)) then
      let cd := r2.adjustCooldown * (1 - adjustCooldownStep)
      { r2 with adjustCooldown := cd,
                converged := decide (cd ≤ adjustRatioQ) }
    else r2

/-- `ticketStore` (ticket.go:118-142).  `tickets` maps a registered topic to
its per-minute buckets of `ticketRef`s; `nodes` is the owner map of stored
tickets; `refCnt` carries each stored ticket's reference count (an `int` in
Go, kept beside the owner map because Go shares the ticket by pointer);
`lastMinRads`/`minRadPtr`/... implement the `minRadius` EWMA ring.  The
`regtopics` drain list (used only by `nextRegisterLookup`) and the log sink
are outside the modelled operations. -/
structure ticketStore where
  radius : List (ℕ × topicRadius)
  tickets : List (ℕ × List (ℕ × List ticketRef))
  nodes : List (ℕ × sticket)
  refCnt : List (ℕ × ℤ)
  nodeLastReq : List (ℕ × (ℕ × ℕ))
  lastBucketFetched : ℕ
  nextTicketCached : Option ticketRef
  minRadius : ℕ
  minRadSum : ℕ
  minRadCnt : ℕ
  minRadPtr : ℕ
  lastMinRads : List ℕ
  deriving DecidableEq, Repr

/-- `newTicketStore` (ticket.go:144-151). -/
def newTicketStore : ticketStore :=
  { radius := [], tickets := [], nodes := [], refCnt := [], nodeLastReq := [],
    lastBucketFetched := 0, nextTicketCached := none, minRadius := 0,
    minRadSum := 0, minRadCnt := 0, minRadPtr := 0,
    lastMinRads := List.replicate minRadAverage 0 }

/-- `addTopic` (ticket.go:156-164), with the Keccak prefix oracle `hashPf`. -/
def addTopic (hashPf : ℕ → ℕ) (s : ticketStore) (topic : ℕ) (register : Bool) :
    ticketStore :=
  let s1 := if (alookup topic s.radius).isNone then
              { s with radius := ainsert topic (newTopicRadius (hashPf topic)) s.radius }
            else s
  if register && (alookup topic s1.tickets).isNone then
    { s1 with tickets := ainsert topic [] s1.tickets }
  else s1

/-- Decrement a stored ticket's reference count; at zero, drop the ticket
from the owner maps (shared tail of `removeRegisterTopic` and
`ticketRegistered`). -/
def derefTicket (st : ticketStore) (node : ℕ) : ticketStore :=
  let c := (alookup node st.refCnt).getD 0 - 1
  if c = 0 then
    { st with refCnt := aerase node st.refCnt,
              nodes := aerase node st.nodes,
              nodeLastReq := aerase node st.nodeLastReq }
  else { st with refCnt := ainsert node c st.refCnt }

/-- `removeRegisterTopic` (ticket.go:167-179).  (The Go code does not
invalidate `nextTicketCached` here.) -/
def removeRegisterTopic (s : ticketStore) (topic : ℕ) : ticketStore :=
  let buckets := (alookup topic s.tickets).getD []
  let refs := buckets.foldl (fun acc p => acc ++ p.2) []
  let s1 := refs.foldl (fun st ref => derefTicket st ref.t.node) s
  { s1 with tickets := aerase topic s1.tickets }

/-- `needMoreTickets` / `ticketsInWindow` (ticket.go:230-249): coverage sum
over the next `timeWindow` buckets, each queued ticket contributing
`targetWaitTime / clamp(regTime - issueTime, [1min, 30min])` (float64 as
exact `ℚ`). -/
def needMoreTickets (s : ticketStore) (now : ℕ) (topic : ℕ) : Bool :=
  let ltBucket := now / ticketTimeBucketLen
  let buckets := (alookup topic s.tickets).getD []
  let sum : ℚ := (List.range timeWindow).foldl (fun acc g =>
    ((alookup (ltBucket + g) buckets).getD []).foldl (fun a r =>
      let l0 : ℕ := r.t.regTime.getD r.idx 0 - r.t.issueTime
      let l1 := if l0 > ticketTimeBucketLen * timeWindow then
                  ticketTimeBucketLen * timeWindow else l0
      let l2 := if l1 < ticketTimeBucketLen then ticketTimeBucketLen else l1
      a + (targetWaitTime : ℚ) / (l2 : ℚ)) acc) 0
  decide (sum < 10)

/-- `adjustWithTicket` (ticket.go:381-396); `idx` is unused in the
`onlyConverging` mode (Go passes `-1`). -/
def adjustWithTicket (s : ticketStore) (localTime : ℕ) (t : sticket) (idx : ℕ)
    (onlyConverging : Bool) : ticketStore :=
  if onlyConverging then
    (List.range t.topics.length).foldl (fun st i =>
      let topic := t.topics.getD i 0
      match alookup topic st.radius with
      | some tt =>
          let tt2 := tt.adjust localTime { t := t, idx := i } st.minRadius
            (decide (st.minRadCnt ≥ minRadStableAfter))
          if !tt.converged && isInRadius tt t.nodePf true then
            { st with radius := ainsert topic tt2 st.radius }
          else st
      | none => st) s
  else
    let topic := t.topics.getD idx 0
    match alookup topic s.radius with
    | some tt =>
        let tt2 := tt.adjust localTime { t := t, idx := idx } s.minRadius
          (decide (s.minRadCnt ≥ minRadStableAfter))
        if isInRadius tt t.nodePf true then
          { s with radius := ainsert topic tt2 s.radius }
        else s
    | none => s

/-- `addTicket` (ticket.go:398-444).  `rnd` is the sampled
`rand.ExpFloat64()` variate (randomness as an oracle). -/
def addTicket (s : ticketStore) (localTime : ℕ) (pingHash : ℕ) (t : sticket)
    (rnd : ℚ) : ticketStore :=
  if (alookup t.node s.nodes).isSome then s
  else
    match alookup t.node s.nodeLastReq with
    | none => adjustWithTicket s localTime t 0 true
    | some lastReq =>
        if lastReq.1 ≠ pingHash then adjustWithTicket s localTime t 0 true
        else
          match t.topics.indexOf? lastReq.2 with
          | none => s
          | some topicIdx =>
              let s1 := adjustWithTicket s localTime t topicIdx false
              let bucket := localTime / ticketTimeBucketLen
              let s2 := if s1.lastBucketFetched = 0 ∨ bucket < s1.lastBucketFetched
                        then { s1 with lastBucketFetched := bucket } else s1
              let p := (List.range t.topics.length).foldl
                (fun (acc : ticketStore × ℕ) i =>
                  let st := acc.1
                  let topic := t.topics.getD i 0
                  match alookup topic st.radius with
                  | none => acc
                  | some tt =>
                      if isInRadius tt t.nodePf false &&
                          needMoreTickets st localTime topic then
                        match alookup topic st.tickets with
                        | none => acc
                        | some buckets =>
                            if tt.converged then
                              let wait : ℤ := (t.regTime.getD i 0 : ℤ) - (localTime : ℤ)
                              let rnd2 := if rnd > 10 then 10 else rnd
                              if (wait : ℚ) < (keepTicketConst : ℚ) +
                                  (keepTicketExp : ℚ) * rnd2 then
                                let b := t.regTime.getD i 0 / ticketTimeBucketLen
                                let newList := ((alookup b buckets).getD []) ++
                                  [{ t := t, idx := i }]
                                ({ st with tickets :=
                                     ainsert topic (ainsert b newList buckets) st.tickets },
                                 acc.2 + 1)
                              else acc
                            else acc
                      else acc) (s2, 0)
              if p.2 > 0 then
                { p.1 with nextTicketCached := none,
                           nodes := ainsert t.node t p.1.nodes,
                           refCnt := ainsert t.node (p.2 : ℤ) p.1.refCnt }
              else p.1

/-- `adjustMinRadius` (ticket.go:455-483): EWMA ring over the XOR distance
between the lookup target and the nearest returned node. -/
def adjustMinRadius (s : ticketStore) (targetPf foundPf : ℕ) : ticketStore :=
  let dist := targetPf ^^^ foundPf
  let mr0 := if dist < maxRadius / 16 then dist * 16 else maxRadius
  let mr := mr0 / minRadAverage
  let sum1 := s.minRadSum - s.lastMinRads.getD s.minRadPtr 0 + mr
  let ring := s.lastMinRads.set s.minRadPtr mr
  let ptr := if s.minRadPtr + 1 = minRadAverage then 0 else s.minRadPtr + 1
  let cnt := s.minRadCnt + 1
  let minR := if cnt < minRadAverage then (sum1 / cnt) * minRadAverage else sum1
  { s with minRadSum := sum1, lastMinRads := ring, minRadPtr := ptr,
           minRadCnt := cnt, minRadius := minR }

/-- `registerLookupDone` (ticket.go:360-379).  `nodesFound` carries
`(node id, sha prefix)` pairs; `ping` is the ping-hash oracle. -/
def registerLookupDone (s : ticketStore) (now : ℕ) (target topic : ℕ)
    (nodesFound : List (ℕ × ℕ)) (ping : ℕ → ℕ) : ticketStore :=
  let s0 := match nodesFound with
            | [] => s
            | n0 :: _ => adjustMinRadius s target n0.2
  (List.range nodesFound.length).foldl (fun st i =>
    let n := nodesFound.getD i (0, 0)
    if i = 0 ∨ (n.2 ^^^ target) < st.minRadius then
      match alookup n.1 st.nodes with
      | some t =>
          match t.topics.indexOf? topic with
          | some idx => adjustWithTicket st now t idx false
          | none => st
      | none => { st with nodeLastReq := ainsert n.1 (ping n.1, topic) st.nodeLastReq }
    else st) s0

/-- `ticketRegistered` (ticket.go:305-338); `none` models the `panic(nil)`
when the reference's ticket is not found in its computed bucket. -/
def ticketRegistered (s : ticketStore) (ref : ticketRef) : Option ticketStore :=
  let topic := ref.t.topics.getD ref.idx 0
  match alookup topic s.tickets with
  | none => some s
  | some buckets =>
      let bucket := ref.t.regTime.getD ref.idx 0 / ticketTimeBucketLen
      let list := (alookup bucket buckets).getD []
      match list.findIdx? (fun bt => bt.t == ref.t) with
      | none => none
      | some i =>
          let list2 := list.eraseIdx i
          let buckets2 := if list2.isEmpty then aerase bucket buckets
                          else ainsert bucket list2 buckets
          let s1 := { s with tickets := ainsert topic buckets2 s.tickets }
          let s2 := derefTicket s1 ref.t.node
          some { s2 with nextTicketCached := none }

/-- The earlier-registration pick of the scan loop (ticket.go:285-288):
strict comparison, first-encountered wins on ties. -/
def nrtPick (a : Option ticketRef) (r : ticketRef) : Option ticketRef :=
  match a with
  | none => some r
  | some best => if r.topicRegTime < best.topicRegTime then some r else a

/-- The per-bucket candidate of the scan loop (ticket.go:279-291): the
earliest-registration reference among all topics' lists at this bucket. -/
def nrtCand (tickets : List (ℕ × List (ℕ × List ticketRef))) (bucket : ℕ) :
    Option ticketRef :=
  tickets.foldl (fun acc p =>
    match alookup bucket p.2 with
    | none => acc
    | some list => list.foldl nrtPick acc) none

/-- The scan loop of `nextRegisterableTicket` (ticket.go:274-301), fueled:
`none` means the fuel ran out while the Go loop would still be running.
Returns the found reference (or `none` at an all-empty store) plus the final
`lastBucketFetched`. -/
def nrtScan (tickets : List (ℕ × List (ℕ × List ticketRef))) :
    ℕ → ℕ → ℕ → Option (Option ticketRef × ℕ)
  | 0, _, _ => none
  | fuel + 1, bucket, lbf =>
      if tickets.all (fun p => p.2.isEmpty) then some (none, lbf)
      else
        match nrtCand tickets bucket with
        | some ref => some (some ref, lbf)
        | none => nrtScan tickets fuel (bucket + 1) bucket

/-- `nextRegisterableTicket` (ticket.go:259-302), fueled.  The outer `none`
means non-termination within the given fuel. -/
def nextRegisterableTicket (fuel : ℕ) (s : ticketStore) (now : ℕ) :
    Option (ticketStore × Option (ticketRef × ℤ)) :=
  match s.nextTicketCached with
  | some ref => some (s, some (ref, (ref.topicRegTime : ℤ) - (now : ℤ)))
  | none =>
      match nrtScan s.tickets fuel s.lastBucketFetched s.lastBucketFetched with
      | none => none
      | some (none, lbf) => some ({ s with lastBucketFetched := lbf }, none)
      | some (some ref, lbf) =>
          some ({ s with lastBucketFetched := lbf, nextTicketCached := some ref },
                some (ref, (ref.topicRegTime : ℤ) - (now : ℤ)))

/-- Ticket-store states reachable through the store operations.  The
`addTicket` step carries the two facts `pongToTicket` (ticket.go:86-106)
guarantees about every ticket handed to `addTicket`: the topic and wait-time
lists have equal length, and each `regTime[i] = localTime + waitPeriod·1s`
is at least the local arrival time. -/
inductive StoreReach (hashPf : ℕ → ℕ) : ticketStore → Prop where
  | init : StoreReach hashPf newTicketStore
  | addTopic (s : ticketStore) (topic : ℕ) (register : Bool) :
      StoreReach hashPf s → StoreReach hashPf (addTopic hashPf s topic register)
  | removeRegisterTopic (s : ticketStore) (topic : ℕ) :
      StoreReach hashPf s → StoreReach hashPf (removeRegisterTopic s topic)
  | addTicket (s : ticketStore) (localTime pingHash : ℕ) (t : sticket) (rnd : ℚ) :
      StoreReach hashPf s →
      t.topics.length = t.regTime.length →
      (∀ i, i < t.regTime.length → localTime ≤ t.regTime.getD i 0) →
      StoreReach hashPf (addTicket s localTime pingHash t rnd)
  | registerLookupDone (s : ticketStore) (now target topic : ℕ)
      (nodesFound : List (ℕ × ℕ)) (ping : ℕ → ℕ) :
      StoreReach hashPf s →
      StoreReach hashPf (registerLookupDone s now target topic nodesFound ping)
  | ticketRegistered (s s' : ticketStore) (ref : ticketRef) :
      StoreReach hashPf s → ticketRegistered s ref = some s' → StoreReach hashPf s'
  | nextReg (s s' : ticketStore) (fuel now : ℕ)
      (res : Option (ticketRef × ℤ)) :
      StoreReach hashPf s → nextRegisterableTicket fuel s now = some (s', res) →
      StoreReach hashPf s'

/-- Claim C10 exactly as stated: from every reachable store state,
`nextRegisterableTicket` terminates — i.e. some finite fuel suffices. -/
def c10Stated (hashPf : ℕ → ℕ) : Prop :=
  ∀ s, StoreReach hashPf s → ∀ now, ∃ fuel, (nextRegisterableTicket fuel s now).isSome

/-- The bucket invariant the claim appeals to: every queued reference list is
non-empty and sits in a bucket at or above `lastBucketFetched`. -/
def bucketInv (s : ticketStore) : Prop :=
  ∀ p ∈ s.tickets, ∀ q ∈ p.2, q.2 ≠ [] ∧ s.lastBucketFetched ≤ q.1

/-- Keccak-prefix oracle for the counterexample runs: topic 5 hashes to
prefix 0. -/
def hashPf0 : ℕ → ℕ := fun _ => 0

/-- Convergence-phase tickets (C10 counterexample): topic 5, registration
wait beyond `targetWaitTime`, node prefix alternating inside/outside the
radius (two in, one out) so `intExtBalance` stays within the guard. -/
def convTicket (n : ℕ) : sticket :=
  { topics := [5], regTime := [700 * 1000000000], serial := 0, issueTime := 0,
    node := 2, nodePf := if n % 3 = 2 then 2 ^ 64 - 1 else 0 }

/-- 390 mismatch-path `addTicket` calls, each performing one radius
adjustment with positive sign, decaying `adjustCooldown` by 0.99 down to
`adjustRatio` and flipping `converged`. -/
def convPhase : ℕ → ticketStore → ticketStore
  | 0, s => s
  | n + 1, s => addTicket (convPhase n s) 0 0 (convTicket n) 0

/-- The matched ticket enqueued at bucket 0 (issued and added during the
first minute of the monotonic clock). -/
def pongT1 : sticket :=
  { topics := [5], regTime := [40 * 1000000000], serial := 1,
    issueTime := 30 * 1000000000, node := 3, nodePf := 0 }

/-- A later matched ticket whose registration wait (11 min) fails the keep
check, so nothing is enqueued — but `lastBucketFetched` is first reset from
the `== 0` sentinel to bucket 100, stranding `pongT1`'s bucket-0 entry. -/
def pongT2 : sticket :=
  { topics := [5], regTime := [6660 * 1000000000], serial := 2,
    issueTime := 6000 * 1000000000, node := 4, nodePf := 0 }

/-- The stranded store: topic 5 registered and converged, one ticket queued
at bucket 0, `lastBucketFetched = 100`. -/
def strandedStore : ticketStore :=
  addTicket
    (registerLookupDone
      (addTicket
        (registerLookupDone (convPhase 390 (addTopic hashPf0 newTicketStore 5 true))
          0 0 5 [(3, 0)] fun _ => 77)
        (30 * 1000000000) 77 pongT1 0)
      0 0 5 [(4, 0)] fun _ => 88)
    (6000 * 1000000000) 88 pongT2 0

/-- A small store satisfying the bucket invariant, for the C10 witness. -/
def c10small : ticketStore :=
  { newTicketStore with tickets := [(5, [(2, [{ t := pongT1, idx := 0 }])])],
                        lastBucketFetched := 1 }

/-- Radius state used by the C4 counterexample: radius 10^6, not converged,
cooldown 0.1, balanced. -/
def c4radius : topicRadius :=
  { topicHashPf := 0, radius := 1000000, adjustCooldown := 1 / 10,
    converged := false, intExtBalance := 0 }

/-- Ticket reference used by the C4 counterexample: the issuing server node
is inside the radius (prefix distance 0) but the registration wait is zero,
below `targetWaitTime`. -/
def c4ref : ticketRef :=
  { t := { topics := [5], regTime := [0], serial := 0, issueTime := 0,
           node := 9, nodePf := 0 }, idx := 0 }

/-- Radius state with every field explicit (proof bookkeeping for the
convergence-phase analysis). -/
def convRad (r : ℕ) (cd : ℚ) (cv : Bool) (b : ℚ) : topicRadius :=
  { topicHashPf := 0, radius := r, adjustCooldown := cd, converged := cv,
    intExtBalance := b }

/-- The store after `addTopic` on topic 5 with the radius entry replaced:
the shape every convergence-phase state has. -/
def convState (tr : topicRadius) : ticketStore :=
  { addTopic hashPf0 newTicketStore 5 true with radius := [(5, tr)] }

/-- `intExtBalance` after `n` convergence-phase tickets (two in-radius
steps of `+1/2`, then one out-of-radius step of `-1`). -/
def balQ (n : ℕ) : ℚ := if n % 3 = 0 then 0 else if n % 3 = 1 then 1 / 2 else 1

/-- The exact `adjustCooldown` value after 390 decays:
`0.1 * 0.99^390 = 99^390 / 10^781`, just below `adjustRatio = 0.002`. -/
def cd390 : ℚ := ((99 ^ 390 : ℕ) : ℚ) / ((10 ^ 781 : ℕ) : ℚ)

/-- The store after the first `registerLookupDone` of the stranding run:
node 3's ping is recorded, the `minRadius` ring has one (zero) sample. -/
def strandedA : ticketStore :=
  { radius := [(5, convRad maxRadius cd390 true 0)], tickets := [(5, [])],
    nodes := [], refCnt := [], nodeLastReq := [(3, (77, 5))],
    lastBucketFetched := 0, nextTicketCached := none, minRadius := 0,
    minRadSum := 0, minRadCnt := 1, minRadPtr := 1,
    lastMinRads := List.replicate minRadAverage 0 }

/-- The store after `addTicket` accepts `pongT1`: the ticket sits in bucket 0
of topic 5 and `lastBucketFetched` is still the sentinel 0.  The radius has
shrunk once by factor `1 - adjustRatio` (floor of `(2^64-1)*499/500`). -/
def strandedB : ticketStore :=
  { radius := [(5, convRad 18409850585562132511 cd390 true (1 / 2))],
    tickets := [(5, [(0, [{ t := pongT1, idx := 0 }])])],
    nodes := [(3, pongT1)], refCnt := [(3, 1)], nodeLastReq := [(3, (77, 5))],
    lastBucketFetched := 0, nextTicketCached := none, minRadius := 0,
    minRadSum := 0, minRadCnt := 1, minRadPtr := 1,
    lastMinRads := List.replicate minRadAverage 0 }

/-- The store after the second `registerLookupDone` (node 4's ping). -/
def strandedC : ticketStore :=
  { strandedB with minRadCnt := 2, minRadPtr := 2,
                   nodeLastReq := [(4, (88, 5)), (3, (77, 5))] }

/-- The stranded store: `addTicket` on `pongT2` resets `lastBucketFetched`
from the sentinel 0 to bucket 100 (ticket.go:418-420), rejects the ticket on
the keep check (11 min wait), and leaves `pongT1`'s bucket-0 reference below
the scan's starting bucket. -/
def strandedD : ticketStore :=
  { strandedC with radius := [(5, convRad 18446670286733256776 cd390 true 1)],
                   lastBucketFetched := 100 }

end TStore

namespace S2P

theorem beVal_append_singleton (l : List ℕ) (b : ℕ) :
    beVal (l ++ [b]) = beVal l * 256 + b := by
  simp [beVal, List.foldl_append]

theorem beBytes_beVal (l : List ℕ) (hb : ∀ b ∈ l, b < 256) :
    beBytes l.length (beVal l) = l := by
  induction l using List.reverseRecOn with
  | nil => simp [beBytes, beVal]
  | append_singleton l b ih =>
      have hb' : ∀ x ∈ l, x < 256 := fun x hx => hb x (by simp [hx])
      have hblt : b < 256 := hb b (by simp)
      have hlen : (l ++ [b]).length = l.length + 1 := by simp
      rw [hlen, beVal_append_singleton, beBytes]
      have hdiv : (beVal l * 256 + b) / 256 = beVal l := by omega
      have hmod : (beVal l * 256 + b) % 256 = b := by omega
      rw [hdiv, hmod, ih hb']

theorem beBytes_beVal_of_len (l : List ℕ) (w : ℕ) (hw : l.length = w)
    (hb : ∀ b ∈ l, b < 256) : beBytes w (beVal l) = l := by
  subst hw; exact beBytes_beVal l hb

theorem alookup_ainsert_self {α : Type} (k : ℕ) (v : α) (l : List (ℕ × α)) :
    alookup k (ainsert k v l) = some v := by
  simp [ainsert, alookup]

theorem alookup_aerase_ne {α : Type} (k n : ℕ) (l : List (ℕ × α)) (h : n ≠ k) :
    alookup n (aerase k l) = alookup n l := by
  induction l with
  | nil => rfl
  | cons p l ih =>
      obtain ⟨a, v⟩ := p
      rw [aerase] at ih
      by_cases hak : a = k
      · have hcond : ((a, v).1 != k) = false := by simp [hak]
        simp only [aerase, List.filter_cons, hcond, Bool.false_eq_true, if_false]
        rw [ih]
        have hne : ¬ (a = n) := by rw [hak]; exact fun hh => h hh.symm
        conv_rhs => rw [alookup]
        rw [if_neg hne]
      · have hcond : ((a, v).1 != k) = true := by simp [hak]
        simp only [aerase, List.filter_cons, hcond, if_true]
        conv_lhs => rw [alookup]
        conv_rhs => rw [alookup]
        by_cases han : a = n
        · rw [if_pos han, if_pos han]
        · rw [if_neg han, if_neg han, ih]

theorem alookup_ainsert_ne {α : Type} (k n : ℕ) (v : α) (l : List (ℕ × α)) (h : n ≠ k) :
    alookup n (ainsert k v l) = alookup n l := by
  have hne : ¬ (k = n) := fun hh => h hh.symm
  rw [ainsert, alookup, if_neg hne]
  exact alookup_aerase_ne k n l h

end S2P

namespace LesSrv

open S2P

/-- Claim C9: for every well-formed 40-byte input (40 bytes, each a byte
value), `linReg` serialization round-trips: `toBytes (fromBytes data) = data`,
where the encoding is `sumX | sumY | sumXX | sumXY` as IEEE-754 big-endian
uint64 bitcasts followed by `cnt` as a big-endian uint64. -/
theorem linReg_toBytes_fromBytes_roundtrip (data : List ℕ)
    (hlen : data.length = 40) (hb : ∀ b ∈ data, b < 256) :
    (linRegFromBytes data).map linReg.toBytes = some data := by
  have h8 : ∀ k : ℕ, ((data.drop k).take 8).length = min 8 (data.length - k) := by
    intro k; simp
  have hmem : ∀ k : ℕ, ∀ b ∈ (data.drop k).take 8, b < 256 := by
    intro k b hbk
    exact hb b (List.mem_of_mem_drop (List.mem_of_mem_take hbk))
  have hmem0 : ∀ b ∈ data.take 8, b < 256 := by
    intro b hbk; exact hb b (List.mem_of_mem_take hbk)
  have e0 : beBytes 8 (beVal (data.take 8)) = data.take 8 :=
    beBytes_beVal_of_len _ 8 (by simp [hlen]) hmem0
  have e1 : beBytes 8 (beVal ((data.drop 8).take 8)) = (data.drop 8).take 8 :=
    beBytes_beVal_of_len _ 8 (by simp [hlen]) (hmem 8)
  have e2 : beBytes 8 (beVal ((data.drop 16).take 8)) = (data.drop 16).take 8 :=
    beBytes_beVal_of_len _ 8 (by simp [hlen]) (hmem 16)
  have e3 : beBytes 8 (beVal ((data.drop 24).take 8)) = (data.drop 24).take 8 :=
    beBytes_beVal_of_len _ 8 (by simp [hlen]) (hmem 24)
  have e4 : beBytes 8 (beVal ((data.drop 32).take 8)) = (data.drop 32).take 8 :=
    beBytes_beVal_of_len _ 8 (by simp [hlen]) (hmem 32)
  have t1 : (data.drop 32).take 8 = data.drop 32 := by
    apply List.take_of_length_le; simp [hlen]
  have d24 : (data.drop 24).take 8 ++ data.drop 32 = data.drop 24 := by
    have h : (data.drop 24).drop 8 = data.drop 32 := by
      rw [List.drop_drop]
    rw [← h, List.take_append_drop]
  have d16 : (data.drop 16).take 8 ++ data.drop 24 = data.drop 16 := by
    have h : (data.drop 16).drop 8 = data.drop 24 := by
      rw [List.drop_drop]
    rw [← h, List.take_append_drop]
  have d8 : (data.drop 8).take 8 ++ data.drop 16 = data.drop 8 := by
    have h : (data.drop 8).drop 8 = data.drop 16 := by
      rw [List.drop_drop]
    rw [← h, List.take_append_drop]
  have d0 : data.take 8 ++ data.drop 8 = data := List.take_append_drop 8 data
  rw [linRegFromBytes, if_pos hlen]
  have htb : linReg.toBytes
      { sumX := beVal (data.take 8), sumY := beVal ((data.drop 8).take 8),
        sumXX := beVal ((data.drop 16).take 8), sumXY := beVal ((data.drop 24).take 8),
        cnt := beVal ((data.drop 32).take 8) } = data := by
    rw [linReg.toBytes]
    dsimp only
    rw [e0, e1, e2, e3, e4]
    rw [List.append_assoc, List.append_assoc, List.append_assoc]
    rw [t1, d24, d16, d8, d0]
  rw [Option.map_some', htb]

end LesSrv

namespace LesCht

open S2P

theorem chtInsertFrom_spec (ch : ChtChain) (start : ℕ) :
    ∀ (m : ℕ) (seed t : ChtTrie), chtInsertFrom ch start m seed = some t →
      ∀ n : ℕ,
        (start ≤ n → n < start + m →
          alookup n t = chtNodeAt ch n ∧ (chtNodeAt ch n).isSome) ∧
        (n < start ∨ start + m ≤ n → alookup n t = alookup n seed) := by
  intro m
  induction m with
  | zero =>
      intro seed t h n
      have ht : seed = t := by
        simpa [chtInsertFrom] using h
      subst ht
      refine ⟨fun h1 h2 => absurd h2 (by omega), fun _ => rfl⟩
  | succ m ih =>
      intro seed t h n
      rw [chtInsertFrom, List.range_succ, List.foldlM_append] at h
      have h' : (chtInsertFrom ch start m seed).bind
          (fun b => (chtNodeAt ch (start + m)).map fun v => ainsert (start + m) v b) = some t := by
        simpa [chtInsertFrom, List.foldlM] using h
      rw [Option.bind_eq_some] at h'
      obtain ⟨t0, ht0, hmap⟩ := h'
      rw [Option.map_eq_some'] at hmap
      obtain ⟨v, hv, hins⟩ := hmap
      subst hins
      have ihn := ih seed t0 ht0 n
      constructor
      · intro h1 h2
        by_cases hn : n = start + m
        · subst hn
          rw [alookup_ainsert_self, hv]
          simp [hv]
        · have hlt : n < start + m := by omega
          rw [alookup_ainsert_ne _ _ _ _ hn]
          exact ihn.1 h1 hlt
      · intro hout
        have hn : n ≠ start + m := by omega
        rw [alookup_ainsert_ne _ _ _ _ hn]
        exact ihn.2 (by omega)

theorem chtInv_step (F : ℕ) (ch : ChtChain) (headNum : ℕ) (db db' : ChtDb) (more : Bool)
    (hinv : ChtInv F ch db) (h : makeCht F ch headNum db = some (db', more)) :
    ChtInv F ch db' := by
  simp only [makeCht] at h
  set L := db.lastChtNum.getD 0 with hL
  by_cases hc : (if headNum > F / 2 then (headNum - F / 2) / F else 0) ≤ L
  · rw [if_pos hc] at h
    simp only [Option.some.injEq, Prod.mk.injEq] at h
    exact h.1 ▸ hinv
  · rw [if_neg hc] at h
    set seed : ChtTrie :=
      if L > 0 then (alookup L db.roots).getD [] else [] with hseed
    rcases hfold : chtInsertFrom ch (L * F) F seed with _ | t
    · rw [hfold] at h; exact absurd h (by simp)
    · rw [hfold] at h
      simp only [Option.some.injEq, Prod.mk.injEq] at h
      have hdb' : db' = { lastChtNum := some (L + 1), roots := ainsert (L + 1) t db.roots } :=
        h.1.symm
      subst hdb'
      -- content of the seed trie
      have hseedc : ∀ n, alookup n seed = if n < L * F then chtNodeAt ch n else none := by
        intro n
        by_cases hL0 : L > 0
        · have hsome := hinv.2 L (by omega) (le_refl _)
          rcases hs : alookup L db.roots with _ | s
          · rw [hs] at hsome; simp at hsome
          · have hc := (hinv.1 L s hs).2.1 n
            rw [hseed, if_pos hL0, hs]
            exact hc
        · have hLz : L = 0 := by omega
          rw [hseed, if_neg hL0]
          rw [hLz]
          simp [alookup]
      have hseedsome : ∀ n, n < L * F → (chtNodeAt ch n).isSome := by
        intro n hn
        by_cases hL0 : L > 0
        · have hsome := hinv.2 L (by omega) (le_refl _)
          rcases hs : alookup L db.roots with _ | s
          · rw [hs] at hsome; simp at hsome
          · exact (hinv.1 L s hs).2.2 n hn
        · have hLz : L = 0 := by omega
          rw [hLz, zero_mul] at hn
          omega
      have hspec := chtInsertFrom_spec ch (L * F) F seed t hfold
      have hLF : (L + 1) * F = L * F + F := by ring
      have htc : ∀ n, alookup n t = if n < (L + 1) * F then chtNodeAt ch n else none := by
        intro n
        by_cases hin : L * F ≤ n ∧ n < L * F + F
        · rw [if_pos (by omega : n < (L + 1) * F)]
          exact ((hspec n).1 hin.1 hin.2).1
        · have hout := (hspec n).2 (by omega)
          rw [hout, hseedc n]
          by_cases hnn : n < L * F
          · rw [if_pos hnn, if_pos (by omega : n < (L + 1) * F)]
          · rw [if_neg hnn, if_neg (by omega : ¬ n < (L + 1) * F)]
      have htsome : ∀ n, n < (L + 1) * F → (chtNodeAt ch n).isSome := by
        intro n hn
        by_cases hnn : n < L * F
        · exact hseedsome n hnn
        · exact ((hspec n).1 (by omega) (by omega)).2
      constructor
      · intro k tk hk
        by_cases hkL : k = L + 1
        · subst hkL
          rw [alookup_ainsert_self] at hk
          obtain ⟨rfl⟩ : t = tk := by injection hk
          exact ⟨⟨by omega, by simp⟩, htc, htsome⟩
        · rw [alookup_ainsert_ne _ _ _ _ hkL] at hk
          obtain ⟨⟨hk1, hk2⟩, hk3, hk4⟩ := hinv.1 k tk hk
          exact ⟨⟨hk1, by simp; omega⟩, hk3, hk4⟩
      · intro k hk1 hk2
        simp only [Option.getD_some] at hk2
        by_cases hkL : k = L + 1
        · subst hkL; rw [alookup_ainsert_self]; rfl
        · rw [alookup_ainsert_ne _ _ _ _ hkL]
          exact hinv.2 k hk1 (by omega)

theorem chtInv_of_reach (F : ℕ) (ch : ChtChain) (db : ChtDb)
    (hreach : ChtReach F ch db) : ChtInv F ch db := by
  induction hreach with
  | init =>
      constructor
      · intro k t hk; exact absurd hk (by simp [alookup])
      · intro k hk1 hk2; simp at hk2; omega
  | step db db' headNum more hr hmk ih =>
      exact chtInv_step F ch headNum db db' more ih hmk

end LesCht

namespace LesCht

open S2P

theorem chtNodeAt_eq_some (ch : ChtChain) (n : ℕ) (v : ChtNode)
    (h : chtNodeAt ch n = some v) :
    ch.canonicalHash n = some v.hash ∧ ch.td n = some v.td := by
  rcases hh : ch.canonicalHash n with _ | a
  · rw [chtNodeAt, hh] at h; simp at h
  · rcases ht : ch.td n with _ | b
    · rw [chtNodeAt, hh, ht] at h; simp at h
    · rw [chtNodeAt, hh, ht] at h
      simp only [Option.some_bind, Option.map_some'] at h
      obtain rfl := Option.some.inj h
      exact ⟨rfl, rfl⟩

/-- Claim C1, counterexample to the claim as stated: with `F = 4`, a chain
head of 6 and an empty database, the builder completes and persists the CHT
root under key 1 although the head 6 is below `(1+1)·4 + 4/2 = 10`, and that
root holds an entry for block 0, outside `[1·4, 2·4)`.  (The code persists
the root of range `[k·F,(k+1)·F)` under key `k+1`, not `k`.) -/
theorem chtClaimStated_counterexample : ¬ chtClaimStated 4 chtChainEx := by
  intro hcl
  have hmk : makeCht 4 chtChainEx 6 chtDbEmpty = some (chtDbEx1, false) := by rfl
  have h1 : (alookup 1 chtDbEx1.roots).isSome := by rfl
  have h0 : alookup 1 chtDbEmpty.roots = none := by rfl
  have hres := hcl 6 chtDbEmpty chtDbEx1 false hmk 1 h1 h0
  have htrig := hres.1
  omega

/-- Claim C1 (corrected): for every CHT that the builder completes, the new
trie root is persisted under key `chtPrefix || uint64_be(k)` with
`k = lastChtNum + 1`, the build fires only when the chain head number is at
least `k·F + F/2`, and the persisted trie commits exactly one entry per block
number `n < k·F` (its fresh entries being the range `[(k-1)·F, k·F)`, on top
of the seed CHT's cumulative content), each entry keyed `uint64_be(n)` with
value the canonical hash and total difficulty of block `n`. -/
theorem makeCht_completed_cht (F : ℕ) (ch : ChtChain) (db : ChtDb) (headNum : ℕ)
    (db' : ChtDb) (more : Bool) (hF : 0 < F) (hreach : ChtReach F ch db)
    (hmk : makeCht F ch headNum db = some (db', more))
    (hbuild : db'.lastChtNum ≠ db.lastChtNum) :
    ∃ k, db'.lastChtNum = some k ∧ k = db.lastChtNum.getD 0 + 1 ∧
      k * F + F / 2 ≤ headNum ∧
      ∃ t, alookup k db'.roots = some t ∧
        (∀ n, n < k * F → ∃ v, alookup n t = some v ∧
            ch.canonicalHash n = some v.hash ∧ ch.td n = some v.td) ∧
        (∀ n, k * F ≤ n → alookup n t = none) := by
  have hinv' := chtInv_step F ch headNum db db' more (chtInv_of_reach F ch db hreach) hmk
  simp only [makeCht] at hmk
  set L := db.lastChtNum.getD 0 with hL
  by_cases hc : (if headNum > F / 2 then (headNum - F / 2) / F else 0) ≤ L
  · rw [if_pos hc] at hmk
    simp only [Option.some.injEq, Prod.mk.injEq] at hmk
    exfalso; apply hbuild; rw [← hmk.1]
  · rw [if_neg hc] at hmk
    set seed : ChtTrie := if L > 0 then (alookup L db.roots).getD [] else [] with hseed
    rcases hfold : chtInsertFrom ch (L * F) F seed with _ | t
    · rw [hfold] at hmk; exact absurd hmk (by simp)
    · rw [hfold] at hmk
      simp only [Option.some.injEq, Prod.mk.injEq] at hmk
      have hdb' : db' = { lastChtNum := some (L + 1), roots := ainsert (L + 1) t db.roots } :=
        hmk.1.symm
      subst hdb'
      have hcontent := (hinv'.1 (L + 1) t (alookup_ainsert_self ..)).2
      refine ⟨L + 1, rfl, rfl, ?_, t, alookup_ainsert_self .., ?_, ?_⟩
      · push_neg at hc
        by_cases hh : headNum > F / 2
        · rw [if_pos hh] at hc
          have h2 : L + 1 ≤ (headNum - F / 2) / F := hc
          have h3 : (L + 1) * F ≤ headNum - F / 2 := (Nat.le_div_iff_mul_le hF).mp h2
          omega
        · rw [if_neg hh] at hc; omega
      · intro n hn
        have h1 := hcontent.1 n
        rw [if_pos hn] at h1
        have h2 := hcontent.2 n hn
        rcases hv : chtNodeAt ch n with _ | v
        · rw [hv] at h2; simp at h2
        · obtain ⟨ha, hb⟩ := chtNodeAt_eq_some ch n v hv
          exact ⟨v, by rw [h1, hv], ha, hb⟩
      · intro n hn
        have h1 := hcontent.1 n
        rw [if_neg (by omega : ¬ n < (L + 1) * F)] at h1
        exact h1

/-- Witness for `makeCht_completed_cht`: the concrete build with `F = 4`,
head 6, empty database. -/
theorem makeCht_completed_cht_witness :
    (0 : ℕ) < 4 ∧
    makeCht 4 chtChainEx 6 chtDbEmpty = some (chtDbEx1, false) ∧
    chtDbEx1.lastChtNum ≠ chtDbEmpty.lastChtNum ∧
    (∃ k, chtDbEx1.lastChtNum = some k ∧ k = chtDbEmpty.lastChtNum.getD 0 + 1 ∧
      k * 4 + 4 / 2 ≤ 6 ∧
      ∃ t, alookup k chtDbEx1.roots = some t ∧
        (∀ n, n < k * 4 → ∃ v, alookup n t = some v ∧
            chtChainEx.canonicalHash n = some v.hash ∧ chtChainEx.td n = some v.td) ∧
        (∀ n, k * 4 ≤ n → alookup n t = none)) :=
  ⟨by decide, by rfl, by decide,
    makeCht_completed_cht 4 chtChainEx chtDbEmpty 6 chtDbEx1 false (by decide)
      ChtReach.init (by rfl) (by decide)⟩

end LesCht

namespace LesSrv

/-- Witness for `linReg_toBytes_fromBytes_roundtrip` on a concrete 40-byte
blob. -/
theorem linReg_roundtrip_witness :
    c9bytes.length = 40 ∧ (∀ b ∈ c9bytes, b < 256) ∧
    (linRegFromBytes c9bytes).map linReg.toBytes = some c9bytes :=
  ⟨by decide, by decide, linReg_toBytes_fromBytes_roundtrip c9bytes (by decide) (by decide)⟩

end LesSrv

namespace Disc

open S2P

theorem getOrNewNode_lookup (t : TopicTable) (node : ℕ) :
    alookup node (getOrNewNode t node).1.nodes = some (getOrNewNode t node).2 := by
  rw [getOrNewNode]
  rcases h : alookup node t.nodes with _ | n
  · exact alookup_ainsert_self ..
  · exact h

theorem storeTicket_present (t : TopicTable) (node : ℕ) (n : nodeInfo)
    (h : alookup node t.nodes = some n) :
    storeTicket t node =
      { t with db := ainsert node (n.lastIssuedTicket, n.lastUsedTicket) t.db } := by
  rw [storeTicket, getOrNewNode, h]

/-- Claim C5 (corrected): `useTicket` admits a topic for registration exactly
when the declared wait-period timestamp `w` satisfies
`int32(currTime - w) ∈ [-1, regTimeWindow + 1]` and the node has no active
entry for that topic; the boundary cases are `w = currTime - 11s` (relative
time 11, inside the window, hence admitted when no entry exists) and
`w = currTime - 12s` (relative time 12, rejected) — not `currTime - 11s`
rejected as the spec states. -/
theorem useTicket_admits_iff (n : nodeInfo) (currTime : ℕ) (pairs : List (ℕ × ℕ))
    (T : ℕ) :
    (T ∈ regTopicsOf n currTime pairs ↔
      ∃ w, (T, w) ∈ pairs ∧ (-1 : ℤ) ≤ relTime32 currTime w ∧
        relTime32 currTime w ≤ regTimeWindow + 1 ∧ alookup T n.entries = none) ∧
    (∀ c : ℕ, 12 ≤ c → c < 2 ^ 32 →
      relTime32 c (c - 11) = 11 ∧ relTime32 c (c - 12) = 12) := by
  constructor
  · rw [regTopicsOf]
    simp only [List.mem_map, List.mem_filter]
    constructor
    · rintro ⟨p, ⟨hp, hok⟩, rfl⟩
      simp only [admitOk, Bool.and_eq_true, decide_eq_true_eq,
        Option.isNone_iff_eq_none] at hok
      exact ⟨p.2, hp, hok.1.1, hok.1.2, hok.2⟩
    · rintro ⟨w, hw, h1, h2, h3⟩
      refine ⟨(T, w), ⟨hw, ?_⟩, rfl⟩
      simp only [admitOk, Bool.and_eq_true, decide_eq_true_eq,
        Option.isNone_iff_eq_none]
      exact ⟨⟨h1, h2⟩, h3⟩
  · intro c h12 hlt
    constructor
    · have hd : (c % 2 ^ 32 + 2 ^ 32 - (c - 11) % 2 ^ 32) % 2 ^ 32 = 11 := by omega
      simp only [relTime32]
      rw [hd]
      norm_num
    · have hd : (c % 2 ^ 32 + 2 ^ 32 - (c - 12) % 2 ^ 32) % 2 ^ 32 = 12 := by omega
      simp only [relTime32]
      rw [hd]
      norm_num

/-- Witness for `useTicket_admits_iff`: topic 3 with declared timestamp 89 at
current time 100 (the `currTime - 11s` boundary) is admitted for a node with
no entries. -/
theorem useTicket_admits_iff_witness :
    3 ∈ regTopicsOf freshNodeInfo 100 [(3, 89)] ∧
    relTime32 100 89 = 11 ∧ relTime32 100 88 = 12 :=
  ⟨((useTicket_admits_iff freshNodeInfo 100 [(3, 89)] 3).1).mpr
      ⟨89, by decide, by decide, by decide, rfl⟩,
    ((useTicket_admits_iff freshNodeInfo 100 [] 3).2 100 (by decide) (by decide)).1,
    ((useTicket_admits_iff freshNodeInfo 100 [] 3).2 100 (by decide) (by decide)).2⟩

/-- Claim C5, counterexample to the boundary as stated: a ticket with
`waitPeriod = currTime - 11s` (89 at current time 100) passes and registers;
the spec says it must be rejected. -/
theorem useTicket_window_counterexample :
    relTime32 100 89 = 11 ∧ (100 : ℕ) - 11 = 89 ∧
    admitOk freshNodeInfo 100 3 89 = true ∧
    (useTicket wex0 emptyTable 7 1 [3] [89] 1000 (100 * 1000000000) 0).map
      (fun p => (p.2, (alookup 3 p.1.topics).map fun te => te.entries.length)) =
      some (true, some 1) :=
  ⟨by decide, by decide, by decide, by rfl⟩

theorem ite_eq_max (m v : ℕ) : (if v < m then m else v) = max m v := by
  split <;> omega

theorem floor_max_natCast (a : ℕ) (x : ℝ) :
    max a (Nat.floor x) = Nat.floor (max (a : ℝ) x) := by
  rcases le_total x (a : ℝ) with h | h
  · rw [max_eq_left h, Nat.floor_natCast]
    have hx : Nat.floor x ≤ a := by
      have h2 := Nat.floor_le_floor h
      rwa [Nat.floor_natCast] at h2
    omega
  · rw [max_eq_right h]
    have hx : a ≤ Nat.floor x := by
      have h2 := Nat.floor_le_floor h
      rwa [Nat.floor_natCast] at h2
    omega

/-- Claim C6: on every registration at time `tm`, the wait-control loop sets
`waitPeriod` to `max(minWaitPeriod, waitPeriod * exp((wcTargetRegInterval -
period) / wcTimeConst))` with `period = tm - lastIncoming`, then sets
`lastIncoming = tm`; the constants are 12s, 10min and 1min (in nanoseconds).
The float64 arithmetic is idealised over `ℝ`; the `uint64` store truncates
the product, so the stored value is the floor of the spec's real-valued
formula. -/
theorem registeredW_formula (w : waitControlLoop) (tm : ℕ) :
    registeredW wexFl w tm =
      { lastIncoming := tm,
        waitPeriod := Nat.floor (max ((minWaitPeriod : ℕ) : ℝ)
          ((w.waitPeriod : ℝ) *
            Real.exp ((((wcTargetRegInterval : ℕ) : ℝ) - ((tm - w.lastIncoming : ℕ) : ℝ)) /
              ((wcTimeConst : ℕ) : ℝ)))) } ∧
    wcTargetRegInterval = 12 * 1000000000 ∧
    wcTimeConst = 600 * 1000000000 ∧ minWaitPeriod = 60 * 1000000000 := by
  refine ⟨?_, by rfl, rfl, rfl⟩
  rw [registeredW]
  simp only [waitControlLoop.mk.injEq]
  refine ⟨trivial, ?_⟩
  simp only [nextWaitPeriodW]
  rw [ite_eq_max, wexFl, floor_max_natCast]

set_option maxRecDepth 200000 in
/-- Claim C3's broken conjunct, exhibited: from a consistent full table
(`globalEntries = topicSum = MaxEntries = 10000`, every topic within the
per-topic cap), a single `AddEntries` of the heap-root topic (one entry,
quiet wait-control) evicts that topic's last entry, deletes the topic, and
then inserts the fresh entry into the orphaned `topicInfo` while still
incrementing `globalEntries`: afterwards `globalEntries = 10000` but the sum
over topics is `9999` (the inserted entry is reachable only from the node
table). -/
theorem addEntries_globalEntries_desync :
    c3bigState.globalEntries = 10000 ∧ topicSum c3bigState = 10000 ∧
    (∀ p ∈ c3bigState.topics, p.2.entries.length ≤ MaxEntriesPerTopic) ∧
    (AddEntries wex0 c3bigState 1000 [0] (3600 * 1000000000) (100 * 1000000000)).map
      (fun t => (t.globalEntries, topicSum t)) = some (10000, 9999) :=
  ⟨rfl, by rfl, by decide, by rfl⟩

/-- Claim C2, counterexample to the claim as stated: a `useTicket` call that
returns `false` (fresh node, serial 5, the single declared timestamp far
outside the window) still sets the node's `lastUsedTicket` to 5 and persists
it to the node database. -/
theorem useTicket_false_mutates_counterexample :
    useTicket wex0 emptyTable 7 5 [3] [0] 1000 (100 * 1000000000) 0 =
      some (c2table, false) ∧
    (alookup 7 c2table.nodes).map nodeInfo.lastUsedTicket = some 5 ∧
    alookup 7 c2table.db = some (0, 5) ∧
    alookup 7 emptyTable.nodes = none ∧ alookup 7 emptyTable.db = none :=
  ⟨by rfl, by rfl, by rfl, by rfl, by rfl⟩

/-- Claim C7, counterexample to the claim as stated: with `noTicketUntil` in
the future, `getTicket` returns a zero serial and an empty wait list but the
true current time (5, not 0) as `currTime`. -/
theorem getTicket_currTime_counterexample :
    getTicket wex0 c7table 7 [1, 2] (5 * 1000000000) = some (c7table, 0, 5, []) ∧
    (alookup 7 c7table.nodes).map nodeInfo.noTicketUntil = some (10 ^ 18) ∧
    (10 ^ 18 : ℕ) > 5 * 1000000000 ∧ (5 : ℕ) ≠ 0 :=
  ⟨by rfl, by rfl, by decide, by decide⟩

/-- Claim C8, counterexample to the claim as stated: from `c8start` (node 1
advertises topic 10 with expired `noTicketUntil`), the first `useTicket`
registers topic 20 but the entry-clearing deletes the node from the node
table (the registration lands in an orphaned `nodeInfo`); repeating the
identical call immediately re-admits topic 20 and creates a second entry
(count 1 after the first call, 2 after the second). -/
theorem useTicket_idem_counterexample :
    ((useTicket wex0 c8start 1 1 [20] [95] 1000 (100 * 1000000000)
        (50 * 1000000000)).map
      fun p => (p.2, (alookup 20 p.1.topics).map fun te => te.entries.length,
                p.1.nodes.length)) = some (true, some 1, 0) ∧
    (((useTicket wex0 c8start 1 1 [20] [95] 1000 (100 * 1000000000)
        (50 * 1000000000)).bind
      fun p => useTicket wex0 p.1 1 1 [20] [95] 1000 (100 * 1000000000)
        (50 * 1000000000)).map
      fun p => (p.2, (alookup 20 p.1.topics).map fun te => te.entries.length)) =
      some (true, some 2) :=
  ⟨by rfl, by rfl⟩

end Disc

namespace Disc

open S2P

/-- Claim C8 (corrected): a repeated `useTicket` call with the same serial
registers nothing additional provided the node is still present in the node
table with `lastUsedTicket` at least the serial and every
`(topic, waitPeriod)` pair fails admission at the second call — in
particular when each topic the first call admitted still holds an active
entry for the node and every other topic still fails the window at the same
time `tm`.  The proviso is genuinely about the surviving entries, not mere
node survival: besides the orphaned-`nodeInfo` repeat of the counterexample,
the first call's own global-cap eviction (topic.go:175-176) can evict the
entry it just inserted (when that topic has become the heap root), after
which the identical second call admits the topic again even though the node
record survived.  Under the stated admission-failure conditions the second
call returns `false` and leaves the table exactly unchanged. -/
theorem useTicket_second_call_identity (wex : ℕ → ℕ → ℕ) (t1 : TopicTable)
    (node serialNo : ℕ) (topicList waitPeriods : List ℕ) (expiry tm ntt : ℕ)
    (n1 : nodeInfo)
    (hgc : tm - t1.lastGarbageCollection < gcInterval)
    (hn : alookup node t1.nodes = some n1)
    (hserial : serialNo % 2 ^ 32 ≤ n1.lastUsedTicket)
    (hcov : ∀ p ∈ topicList.zip waitPeriods,
      admitOk n1 ((tm / 1000000000) % 2 ^ 32) p.1 p.2 = false) :
    useTicket wex t1 node serialNo topicList waitPeriods expiry tm ntt =
      some (t1, false) := by
  have hgc' : collectGarbage wex t1 tm = some t1 := by
    rw [collectGarbage, if_pos hgc]
  rw [useTicket, hgc', Option.some_bind]
  simp only [getOrNewNode, hn]
  by_cases hlt : serialNo % 2 ^ 32 < n1.lastUsedTicket
  · rw [if_pos hlt]
  · rw [if_neg hlt]
    have heq : serialNo % 2 ^ 32 = n1.lastUsedTicket := by omega
    have hupd : decide (serialNo % 2 ^ 32 ≠ n1.lastUsedTicket) = false := by
      rw [heq]
      simp
    rw [hupd]
    have hreg : regTopicsOf n1 ((tm / 1000000000) % 2 ^ 32)
        (topicList.zip waitPeriods) = [] := by
      rw [regTopicsOf]
      have hfil : (topicList.zip waitPeriods).filter
          (fun p => admitOk n1 ((tm / 1000000000) % 2 ^ 32) p.1 p.2) = [] := by
        rw [List.filter_eq_nil_iff]
        intro p hp
        rw [hcov p hp]
        simp
      rw [hfil, List.map_nil]
    simp only [Bool.false_eq_true, if_false, hreg, List.isEmpty_nil, if_true]

/-- Witness for `useTicket_second_call_identity`: node 7 registers topic 3
from the empty table (no previous entries, so no orphaning); the identical
second call returns `false` and leaves the state `c8mid` unchanged. -/
theorem useTicket_second_call_identity_witness :
    useTicket wex0 emptyTable 7 1 [3] [89] 1000 (100 * 1000000000) (10 ^ 15) =
      some (c8mid, true) ∧
    useTicket wex0 c8mid 7 1 [3] [89] 1000 (100 * 1000000000) (10 ^ 15) =
      some (c8mid, false) :=
  ⟨by rfl,
    useTicket_second_call_identity wex0 c8mid 7 1 [3] [89] 1000 (100 * 1000000000)
      (10 ^ 15)
      { entries := [(3, { topic := 3, fifoIdx := 0, node := 7, expire := 100000001000 })],
        noTicketUntil := 1000100000000000, lastIssuedTicket := 0, lastUsedTicket := 1 }
      (by decide) (by rfl) (by decide) (by decide)⟩

end Disc

namespace Disc

open S2P

/-- Claim C7 (corrected): `getTicket` coincides with the spec-side
`getTicketSpec` for every input — on the `noTicketUntil > now` branch it
returns a zero serial and no wait times without touching or persisting the
counters, but the returned `currTime` is the true current time (truncated to
`uint32` seconds), not zero; otherwise it increments `lastIssuedTicket`,
persists both counters, and returns `currTime` plus each topic's wait period
(or `minWaitPeriod` for an unknown topic) in seconds. -/
theorem getTicket_eq_spec (wex : ℕ → ℕ → ℕ) (t0 : TopicTable) (node : ℕ)
    (topicList : List ℕ) (tm : ℕ) :
    getTicket wex t0 node topicList tm = getTicketSpec wex t0 node topicList tm := by
  rw [getTicket, getTicketSpec]
  rcases hgc : collectGarbage wex t0 tm with _ | tg
  · rfl
  · rw [Option.some_bind, Option.some_bind]
    simp only []
    by_cases hnt : (getOrNewNode tg node).2.noTicketUntil > tm
    · rw [if_pos hnt, if_pos hnt]
    · rw [if_neg hnt, if_neg hnt]
      rw [storeTicket_present _ node
          { (getOrNewNode tg node).2 with
              lastIssuedTicket := ((getOrNewNode tg node).2.lastIssuedTicket + 1) % 2 ^ 32 }
          (alookup_ainsert_self ..)]

end Disc

namespace Disc

open S2P

/-- Claim C2 (corrected): `useTicket` coincides with the spec-side
`useTicketSpec` for every input.  In particular, when it returns `false` no
entry is registered and `noTicketUntil` is not set, and when the serial is
out of order nothing changes beyond garbage collection and the node-record
load — but a strictly advancing serial updates and persists `lastUsedTicket`
even when no topic passes the admission window, contradicting the claim's
"no state change" on that failure path. -/
theorem useTicket_eq_spec (wex : ℕ → ℕ → ℕ) (t0 : TopicTable) (node serialNo : ℕ)
    (topicList : List ℕ) (waitPeriods : List ℕ) (expiry tm ntt : ℕ) :
    useTicket wex t0 node serialNo topicList waitPeriods expiry tm ntt =
      useTicketSpec wex t0 node serialNo topicList waitPeriods expiry tm ntt := by
  rw [useTicket, useTicketSpec]
  rcases hgc : collectGarbage wex t0 tm with _ | tg
  · rfl
  · rw [Option.some_bind, Option.some_bind]
    simp only []
    by_cases hlt : serialNo % 2 ^ 32 < (getOrNewNode tg node).2.lastUsedTicket
    · rw [if_pos hlt, if_pos hlt]
    · rw [if_neg hlt, if_neg hlt]
      by_cases heq : serialNo % 2 ^ 32 = (getOrNewNode tg node).2.lastUsedTicket
      · have hupd : decide (serialNo % 2 ^ 32 ≠ (getOrNewNode tg node).2.lastUsedTicket) =
            false := by
          rw [heq]; simp
        rw [hupd, if_pos heq]
        have hn2 : ({ (getOrNewNode tg node).2 with
            lastUsedTicket := serialNo % 2 ^ 32 } : nodeInfo) =
            (getOrNewNode tg node).2 := by rw [heq]
        rw [hn2]
        simp only [Bool.false_eq_true, if_false]
      · have hupd : decide (serialNo % 2 ^ 32 ≠ (getOrNewNode tg node).2.lastUsedTicket) =
            true := by
          simp only [ne_eq, decide_eq_true_eq]
          exact heq
        rw [hupd, if_neg heq]
        simp only [if_true]
        rw [storeTicket_present _ node
            { (getOrNewNode tg node).2 with lastUsedTicket := serialNo % 2 ^ 32 }
            (alookup_ainsert_self ..)]

end Disc

namespace TStore

open S2P

theorem nrtPick_isSome (a : Option ticketRef) (r : ticketRef) :
    (nrtPick a r).isSome := by
  rcases a with _ | best
  · rfl
  · dsimp [nrtPick]
    split <;> rfl

theorem foldl_nrtPick_isSome (l : List ticketRef) :
    ∀ a : Option ticketRef, a.isSome ∨ l ≠ [] → (l.foldl nrtPick a).isSome := by
  induction l with
  | nil =>
      intro a h
      rcases h with h | h
      · exact h
      · exact absurd rfl h
  | cons r rest ih =>
      intro a _
      rw [List.foldl_cons]
      exact ih (nrtPick a r) (Or.inl (nrtPick_isSome a r))

theorem nrtCand_foldl_isSome (bucket : ℕ) (tickets : List (ℕ × List (ℕ × List ticketRef))) :
    ∀ acc : Option ticketRef, acc.isSome →
      (tickets.foldl (fun acc p =>
        match alookup bucket p.2 with
        | none => acc
        | some list => list.foldl nrtPick acc) acc).isSome := by
  induction tickets with
  | nil => intro acc h; exact h
  | cons q rest ih =>
      intro acc h
      rw [List.foldl_cons]
      apply ih
      rcases hl : alookup bucket q.2 with _ | list
      · exact h
      · exact foldl_nrtPick_isSome list acc (Or.inl h)

theorem nrtCand_isSome_of_mem (bucket : ℕ)
    (tickets : List (ℕ × List (ℕ × List ticketRef))) (p : ℕ × List (ℕ × List ticketRef))
    (lst : List ticketRef) (hp : p ∈ tickets) (hl : alookup bucket p.2 = some lst)
    (hne : lst ≠ []) : (nrtCand tickets bucket).isSome := by
  rw [nrtCand]
  have main : ∀ (ts : List (ℕ × List (ℕ × List ticketRef))) (acc : Option ticketRef),
      p ∈ ts →
      (ts.foldl (fun acc p =>
        match alookup bucket p.2 with
        | none => acc
        | some list => list.foldl nrtPick acc) acc).isSome := by
    intro ts
    induction ts with
    | nil => intro acc h; exact absurd h (List.not_mem_nil p)
    | cons q rest ih =>
        intro acc hmem
        rw [List.foldl_cons]
        rcases List.mem_cons.mp hmem with rfl | htail
        · apply nrtCand_foldl_isSome
          rw [hl]
          exact foldl_nrtPick_isSome lst acc (Or.inr hne)
        · exact ih _ htail
  exact main tickets none hp

theorem nrtScan_finds (tickets : List (ℕ × List (ℕ × List ticketRef))) (b0 : ℕ)
    (hpop : ∃ p ∈ tickets, ∃ lst, alookup b0 p.2 = some lst ∧ lst ≠ []) :
    ∀ d bucket lbf, bucket ≤ b0 → b0 < bucket + d →
      (nrtScan tickets d bucket lbf).isSome := by
  intro d
  induction d with
  | zero => intro bucket lbf h1 h2; omega
  | succ d ih =>
      intro bucket lbf h1 h2
      rw [nrtScan]
      split
      · rfl
      · rcases hc : nrtCand tickets bucket with _ | ref
        · have hne : bucket ≠ b0 := by
            intro he
            subst he
            obtain ⟨p, hp, lst, hl, hlne⟩ := hpop
            have hsome := nrtCand_isSome_of_mem bucket tickets p lst hp hl hlne
            rw [hc] at hsome
            exact absurd hsome (by simp)
          exact ih (bucket + 1) bucket (by omega) (by omega)
        · rfl

theorem alookup_isSome_of_mem {α : Type} (k : ℕ) (v : α) (l : List (ℕ × α))
    (h : (k, v) ∈ l) : (alookup k l).isSome := by
  induction l with
  | nil => exact absurd h (List.not_mem_nil _)
  | cons q rest ih =>
      rw [alookup]
      obtain ⟨a, w⟩ := q
      by_cases hak : a = k
      · rw [if_pos hak]; rfl
      · rw [if_neg hak]
        rcases List.mem_cons.mp h with he | htail
        · exact absurd (congrArg Prod.fst he).symm hak
        · exact ih htail

theorem alookup_mem {α : Type} (k : ℕ) (v : α) (l : List (ℕ × α))
    (h : alookup k l = some v) : (k, v) ∈ l := by
  induction l with
  | nil => exact absurd h (by rw [alookup]; simp)
  | cons q rest ih =>
      obtain ⟨a, w⟩ := q
      rw [alookup] at h
      by_cases hak : a = k
      · rw [if_pos hak] at h
        obtain rfl := Option.some.inj h
        subst hak
        exact List.mem_cons_self _ _
      · rw [if_neg hak] at h
        exact List.mem_cons_of_mem _ (ih h)

/-- Claim C10 (corrected): `nextRegisterableTicket` terminates from every
store state satisfying the bucket invariant (every queued reference list is
non-empty and lies in a time bucket at or above `lastBucketFetched`): either
some topic has a queued ticket, and the ascending scan reaches the first
populated bucket in finitely many steps, or no topic has queued tickets and
`nil` is returned immediately.  (The invariant — not plain reachability — is
the correct hypothesis: `addTicket`'s `lastBucketFetched == 0` sentinel can
strand a bucket-0 reference on a reachable state, see the counterexample.) -/
theorem nextRegisterableTicket_terminates (s : ticketStore) (now : ℕ)
    (hinv : bucketInv s) : ∃ fuel, (nextRegisterableTicket fuel s now).isSome := by
  rcases hc : s.nextTicketCached with _ | ref
  · by_cases hemp : s.tickets.all (fun p => p.2.isEmpty)
    · refine ⟨1, ?_⟩
      rw [nextRegisterableTicket, hc]
      have h1 : nrtScan s.tickets 1 s.lastBucketFetched s.lastBucketFetched =
          some (none, s.lastBucketFetched) := by
        rw [nrtScan, if_pos hemp]
      rw [h1]
      rfl
    · simp only [List.all_eq_true, not_forall] at hemp
      obtain ⟨p, hp, hpe⟩ := hemp
      have hpne : p.2 ≠ [] := by
        intro he
        rw [he] at hpe
        exact hpe (by rfl)
      obtain ⟨q, hq⟩ := List.exists_mem_of_ne_nil p.2 hpne
      obtain ⟨lst, hlst⟩ := Option.isSome_iff_exists.mp
        (alookup_isSome_of_mem q.1 q.2 p.2 (by simpa using hq))
      have hmem := alookup_mem q.1 lst p.2 hlst
      obtain ⟨hlne, hge⟩ := hinv p hp (q.1, lst) hmem
      refine ⟨q.1 + 1 - s.lastBucketFetched, ?_⟩
      rw [nextRegisterableTicket, hc]
      have hscan := nrtScan_finds s.tickets q.1 ⟨p, hp, lst, hlst, hlne⟩
        (q.1 + 1 - s.lastBucketFetched) s.lastBucketFetched s.lastBucketFetched
        hge (by omega)
      rcases hsc : nrtScan s.tickets (q.1 + 1 - s.lastBucketFetched)
          s.lastBucketFetched s.lastBucketFetched with _ | pr
      · rw [hsc] at hscan; exact absurd hscan (by simp)
      · rcases pr with ⟨r, lbf⟩
        rcases r with _ | ref
        · rfl
        · rfl
  · exact ⟨1, by rw [nextRegisterableTicket, hc]; rfl⟩

/-- Witness for `nextRegisterableTicket_terminates` on a small store with one
queued ticket at bucket 2 and `lastBucketFetched = 1`. -/
theorem nextRegisterableTicket_terminates_witness :
    bucketInv c10small ∧ ∃ fuel, (nextRegisterableTicket fuel c10small 0).isSome :=
  ⟨by unfold bucketInv; decide, nextRegisterableTicket_terminates c10small 0
    (by unfold bucketInv; decide)⟩

end TStore

namespace TStore

open S2P

lemma addTicket_mism (s : ticketStore) (t : sticket) (L pingHash : ℕ) (rnd : ℚ)
    (hn : alookup t.node s.nodes = none) (hr : alookup t.node s.nodeLastReq = none) :
    addTicket s L pingHash t rnd = adjustWithTicket s L t 0 true := by
  simp only [addTicket, hn, hr, Option.isSome_none, Bool.false_eq_true, if_false]

lemma convAWT (tr : topicRadius) (hcv : tr.converged = false) (t : sticket)
    (htp : t.topics = [5]) (hext : isInRadius tr t.nodePf true = true) (L : ℕ) :
    adjustWithTicket (convState tr) L t 0 true =
    convState (tr.adjust L { t := t, idx := 0 } 0 false) := by
  have hrad : (convState tr).radius = [(5, tr)] := rfl
  simp only [adjustWithTicket, if_true, htp, List.length_singleton,
    show List.range 1 = [0] from rfl, List.foldl_cons, List.foldl_nil, hrad,
    List.getD, hcv, hext]
  simp only [show (([5].get? (0:ℕ)).getD 0) = 5 from rfl,
    show alookup 5 [(5, tr)] = some tr from rfl, hcv, hext, Bool.not_false,
    Bool.true_and, if_true]
  rfl

lemma convStep (cd : ℚ) (hcd : 0 < cd) (n : ℕ) :
    addTicket (convState (convRad maxRadius cd false (balQ n))) 0 0 (convTicket n) 0 =
    convState (convRad maxRadius (cd * (1 - adjustCooldownStep))
      (decide (cd * (1 - adjustCooldownStep) ≤ adjustRatioQ)) (balQ (n + 1))) := by
  have hext : isInRadius (convRad maxRadius cd false (balQ n))
      (convTicket n).nodePf true = true := by
    by_cases h : n % 3 = 2 <;>
      norm_num [isInRadius, convRad, convTicket, maxRadius, radiusExtendQ, h]
  rw [addTicket_mism (convState (convRad maxRadius cd false (balQ n)))
    (convTicket n) 0 0 0 rfl rfl]
  rw [convAWT (convRad maxRadius cd false (balQ n)) rfl (convTicket n) rfl hext 0]
  refine congrArg convState ?_
  have h3 : n % 3 = 0 ∨ n % 3 = 1 ∨ n % 3 = 2 := by omega
  rcases h3 with h | h | h
  · have hb : balQ n = 0 := by simp [balQ, h]
    have hb1 : balQ (n + 1) = 1 / 2 := by
      have h1 : (n + 1) % 3 = 1 := by omega
      simp [balQ, h1]
    have hpf : convTicket n = (⟨[5], [700 * 1000000000], 0, 0, 2, 0⟩ : sticket) := by
      simp [convTicket, h]
    rw [hb, hb1, hpf]
    simp only [topicRadius.adjust, convRad]
    norm_num [isInRadius, maxRadius, targetWaitTime]
    rw [if_pos hcd]
    simp only [if_pos hcd, topicRadius.mk.injEq]
    norm_num [radiusExtendQ]
  · have hb : balQ n = 1 / 2 := by simp [balQ, h]
    have hb1 : balQ (n + 1) = 1 := by
      have h1 : (n + 1) % 3 = 2 := by omega
      simp [balQ, h1]
    have hpf : convTicket n = (⟨[5], [700 * 1000000000], 0, 0, 2, 0⟩ : sticket) := by
      simp [convTicket, h]
    rw [hb, hb1, hpf]
    simp only [topicRadius.adjust, convRad]
    norm_num [isInRadius, maxRadius, targetWaitTime]
    rw [if_pos hcd]
    simp only [if_pos hcd, topicRadius.mk.injEq]
    norm_num [radiusExtendQ]
  · have hb : balQ n = 1 := by simp [balQ, h]
    have hb1 : balQ (n + 1) = 0 := by
      have h1 : (n + 1) % 3 = 0 := by omega
      simp [balQ, h1]
    have hpf : convTicket n =
        (⟨[5], [700 * 1000000000], 0, 0, 2, 2 ^ 64 - 1⟩ : sticket) := by
      simp [convTicket, h]
    rw [hb, hb1, hpf]
    simp only [topicRadius.adjust, convRad]
    norm_num [isInRadius, maxRadius, targetWaitTime]
    rw [if_pos hcd]
    simp only [if_pos hcd, topicRadius.mk.injEq]

set_option exponentiation.threshold 400 in
lemma pow390_le : (1 : ℚ) / 10 * (99 / 100) ^ 390 ≤ adjustRatioQ := by
  rw [adjustRatioQ]
  norm_num

set_option exponentiation.threshold 400 in
lemma pow_not_conv (n : ℕ) (hn : n ≤ 389) :
    adjustRatioQ < (1 : ℚ) / 10 * (99 / 100) ^ n := by
  have h0 : ((99 : ℚ) / 100) ^ 389 ≤ (99 / 100) ^ n :=
    pow_le_pow_of_le_one (by norm_num) (by norm_num) hn
  have h1 : adjustRatioQ < (1 : ℚ) / 10 * (99 / 100) ^ 389 := by
    rw [adjustRatioQ]
    norm_num
  linarith

lemma convPhase_closed (n : ℕ) (hn : n ≤ 390) :
    convPhase n (addTopic hashPf0 newTicketStore 5 true) =
    convState (convRad maxRadius ((1 / 10) * (99 / 100) ^ n)
      (decide ((1 / 10 : ℚ) * (99 / 100) ^ n ≤ adjustRatioQ)) (balQ n)) := by
  induction n with
  | zero =>
      have h1 : (1 / 10 : ℚ) * (99 / 100) ^ 0 = 1 / 10 := by norm_num
      have h2 : (decide ((1 / 10 : ℚ) * (99 / 100) ^ 0 ≤ adjustRatioQ)) = false := by
        rw [decide_eq_false_iff_not, adjustRatioQ]
        norm_num
      show addTopic hashPf0 newTicketStore 5 true = _
      rw [h2, h1]
      rfl
  | succ n ih =>
      have hn' : n ≤ 389 := by omega
      have hlt := pow_not_conv n hn'
      have hfalse : (decide ((1 / 10 : ℚ) * (99 / 100) ^ n ≤ adjustRatioQ)) = false := by
        rw [decide_eq_false_iff_not]
        exact not_le.mpr hlt
      have heq : ((1 / 10 : ℚ) * (99 / 100) ^ n) * (1 - adjustCooldownStep) =
          (1 / 10 : ℚ) * (99 / 100) ^ (n + 1) := by
        rw [adjustCooldownStep, pow_succ]
        ring
      show addTicket (convPhase n (addTopic hashPf0 newTicketStore 5 true)) 0 0
        (convTicket n) 0 = _
      rw [ih (by omega), hfalse,
        convStep ((1 / 10 : ℚ) * (99 / 100) ^ n) (by positivity) n, heq]

lemma conv390 : convPhase 390 (addTopic hashPf0 newTicketStore 5 true) =
    convState (convRad maxRadius ((1 / 10) * (99 / 100) ^ 390) true 0) := by
  rw [convPhase_closed 390 (le_refl 390), decide_eq_true pow390_le]
  rfl

set_option exponentiation.threshold 800 in
lemma cd390_eq : (1 / 10 : ℚ) * (99 / 100) ^ 390 = cd390 := by
  rw [cd390]
  norm_num

lemma strandedA_eq :
    registerLookupDone (convState (convRad maxRadius cd390 true 0)) 0 0 5 [(3, 0)]
      (fun _ => 77) = strandedA := by
  rfl

lemma adjB : (convRad maxRadius cd390 true 0).adjust (30 * 1000000000)
    { t := pongT1, idx := 0 } 0 false = convRad 18409850585562132511 cd390 true (1 / 2) := by
  simp only [topicRadius.adjust, convRad, pongT1]
  norm_num [isInRadius, maxRadius, targetWaitTime, adjustRatioQ]
  refine ⟨?_, by norm_num [radiusExtendQ]⟩
  have hb : ((1840985058556213251177 : ℚ) / 100).floor =
      ⌊((1840985058556213251177 : ℚ) / 100)⌋ := rfl
  rw [hb]
  have h1 : ((1840985058556213251177 : ℚ) / 100) =
      ((1840985058556213251177 : ℤ) : ℚ) / ((100 : ℕ) : ℚ) := by norm_num
  rw [h1, Rat.floor_intCast_div_natCast]
  decide

lemma awtHit (s : ticketStore) (tr tt2 : topicRadius) (t : sticket) (L : ℕ)
    (hrad : s.radius = [(5, tr)]) (htp : t.topics = [5])
    (hext : isInRadius tr t.nodePf true = true)
    (hmr : s.minRadius = 0) (hmc : decide (s.minRadCnt ≥ minRadStableAfter) = false)
    (hadj : tr.adjust L { t := t, idx := 0 } 0 false = tt2) :
    adjustWithTicket s L t 0 false = { s with radius := [(5, tt2)] } := by
  simp only [adjustWithTicket, Bool.false_eq_true, if_false, htp,
    show ([5].getD (0 : ℕ) 0) = 5 from rfl, hrad,
    show alookup 5 [(5, tr)] = some tr from rfl, hext, hmr, hmc, hadj, if_true]
  simp only [show ainsert 5 tt2 [(5, tr)] = [(5, tt2)] from rfl]

lemma strandedB_eq :
    addTicket strandedA (30 * 1000000000) 77 pongT1 0 = strandedB := by
  have hn : alookup pongT1.node strandedA.nodes = none := rfl
  have hr : alookup pongT1.node strandedA.nodeLastReq = some (77, 5) := rfl
  have hi : pongT1.topics.indexOf? 5 = some 0 := rfl
  have hawt : adjustWithTicket strandedA (30 * 1000000000) pongT1 0 false =
      { strandedA with
          radius := [(5, convRad 18409850585562132511 cd390 true (1 / 2))] } :=
    awtHit strandedA (convRad maxRadius cd390 true 0) _ pongT1 _ rfl rfl
      (by norm_num [isInRadius, convRad, pongT1, maxRadius, radiusExtendQ]) rfl rfl adjB
  simp only [addTicket, hn, hr, hi, Option.isSome_none, Bool.false_eq_true, if_false,
    ne_eq, hawt]
  norm_num [show strandedA.lastBucketFetched = 0 from rfl,
    show pongT1.topics = [5] from rfl, show pongT1.regTime = [40 * 1000000000] from rfl,
    show pongT1.nodePf = 0 from rfl,
    show List.range 1 = [0] from rfl, List.foldl_cons, List.foldl_nil, List.getD,
    ticketTimeBucketLen, keepTicketConst, keepTicketExp]
  norm_num [show alookup 5 [(5, convRad 18409850585562132511 cd390 true (1 / 2))] =
      some (convRad 18409850585562132511 cd390 true (1 / 2)) from rfl,
    show isInRadius (convRad 18409850585562132511 cd390 true (1 / 2)) 0 false =
      true from rfl,
    show alookup 5 strandedA.tickets =
      some ([] : List (ℕ × List ticketRef)) from rfl,
    show (convRad 18409850585562132511 cd390 true (1 / 2)).converged = true from rfl]
  rfl

lemma adjD : (convRad 18409850585562132511 cd390 true (1 / 2)).adjust
    (6000 * 1000000000) { t := pongT2, idx := 0 } 0 false =
    convRad 18446670286733256776 cd390 true 1 := by
  simp only [topicRadius.adjust, convRad, pongT2]
  norm_num [isInRadius, maxRadius, targetWaitTime, adjustRatioQ, radiusExtendQ]
  have hb : ((9223335143366628388011 : ℚ) / 500).floor =
      ⌊((9223335143366628388011 : ℚ) / 500)⌋ := rfl
  rw [hb]
  have h1 : ((9223335143366628388011 : ℚ) / 500) =
      ((9223335143366628388011 : ℤ) : ℚ) / ((500 : ℕ) : ℚ) := by norm_num
  rw [h1, Rat.floor_intCast_div_natCast]
  decide

lemma strandedD_eq :
    addTicket strandedC (6000 * 1000000000) 88 pongT2 0 = strandedD := by
  have hn : alookup pongT2.node strandedC.nodes = none := rfl
  have hr : alookup pongT2.node strandedC.nodeLastReq = some (88, 5) := rfl
  have hi : pongT2.topics.indexOf? 5 = some 0 := rfl
  have hawt : adjustWithTicket strandedC (6000 * 1000000000) pongT2 0 false =
      { strandedC with
          radius := [(5, convRad 18446670286733256776 cd390 true 1)] } :=
    awtHit strandedC (convRad 18409850585562132511 cd390 true (1 / 2)) _ pongT2 _
      rfl rfl (by norm_num [isInRadius, convRad, pongT2, radiusExtendQ]) rfl rfl adjD
  simp only [addTicket, hn, hr, hi, Option.isSome_none, Bool.false_eq_true, if_false,
    ne_eq, hawt]
  norm_num [show strandedC.lastBucketFetched = 0 from rfl,
    show pongT2.topics = [5] from rfl, show pongT2.regTime = [6660 * 1000000000] from rfl,
    show pongT2.nodePf = 0 from rfl,
    show List.range 1 = [0] from rfl, List.foldl_cons, List.foldl_nil, List.getD,
    ticketTimeBucketLen, keepTicketConst, keepTicketExp]
  norm_num [show alookup 5 [(5, convRad 18446670286733256776 cd390 true 1)] =
      some (convRad 18446670286733256776 cd390 true 1) from rfl,
    show alookup 5 strandedC.tickets =
      some [(0, [({ t := pongT1, idx := 0 } : ticketRef)])] from rfl,
    ite_self]
  rfl

lemma strandedC_eq :
    registerLookupDone strandedB 0 0 5 [(4, 0)] (fun _ => 88) = strandedC := by
  rfl

lemma conv390cd : convPhase 390 (addTopic hashPf0 newTicketStore 5 true) =
    convState (convRad maxRadius cd390 true 0) := by
  rw [conv390, cd390_eq]

lemma strandedStore_eq : strandedStore = strandedD := by
  show addTicket
    (registerLookupDone
      (addTicket
        (registerLookupDone (convPhase 390 (addTopic hashPf0 newTicketStore 5 true))
          0 0 5 [(3, 0)] fun _ => 77)
        (30 * 1000000000) 77 pongT1 0)
      0 0 5 [(4, 0)] fun _ => 88)
    (6000 * 1000000000) 88 pongT2 0 = _
  rw [conv390cd, strandedA_eq, strandedB_eq, strandedC_eq, strandedD_eq]

lemma convPhase_reach : ∀ (n : ℕ) (s : ticketStore), StoreReach hashPf0 s →
    StoreReach hashPf0 (convPhase n s) := by
  intro n
  induction n with
  | zero => intro s h; exact h
  | succ n ih =>
      intro s h
      exact StoreReach.addTicket _ 0 0 (convTicket n) 0 (ih s h) rfl
        (fun i _ => Nat.zero_le _)

lemma stranded_reach : StoreReach hashPf0 strandedStore := by
  have hrt1 : ∀ i, i < pongT1.regTime.length →
      30 * 1000000000 ≤ pongT1.regTime.getD i 0 := by
    intro i hi
    have h0 : i = 0 := by
      simp only [pongT1, List.length_singleton] at hi
      omega
    subst h0
    norm_num [pongT1]
  have hrt2 : ∀ i, i < pongT2.regTime.length →
      6000 * 1000000000 ≤ pongT2.regTime.getD i 0 := by
    intro i hi
    have h0 : i = 0 := by
      simp only [pongT2, List.length_singleton] at hi
      omega
    subst h0
    norm_num [pongT2]
  have h1 : StoreReach hashPf0 (addTopic hashPf0 newTicketStore 5 true) :=
    StoreReach.addTopic _ 5 true StoreReach.init
  have h2 := convPhase_reach 390 _ h1
  have h3 := StoreReach.registerLookupDone _ 0 0 5 [(3, 0)] (fun _ => 77) h2
  have h4 := StoreReach.addTicket _ (30 * 1000000000) 77 pongT1 0 h3 rfl hrt1
  have h5 := StoreReach.registerLookupDone _ 0 0 5 [(4, 0)] (fun _ => 88) h4
  exact StoreReach.addTicket _ (6000 * 1000000000) 88 pongT2 0 h5 rfl hrt2

lemma stranded_scan : ∀ (fuel bucket lbf : ℕ), 1 ≤ bucket →
    nrtScan [(5, [(0, [({ t := pongT1, idx := 0 } : ticketRef)])])] fuel bucket lbf =
      none := by
  intro fuel
  induction fuel with
  | zero => intro bucket lbf _; rfl
  | succ fuel ih =>
      intro bucket lbf h
      rw [nrtScan]
      have hemp : (([(5, [(0, [({ t := pongT1, idx := 0 } : ticketRef)])])].all
          fun p => p.2.isEmpty) : Bool) = false := by rfl
      rw [hemp]
      have hcand : nrtCand [(5, [(0, [({ t := pongT1, idx := 0 } : ticketRef)])])]
          bucket = none := by
        rw [nrtCand, List.foldl_cons, List.foldl_nil]
        have hl : alookup bucket [(0, [({ t := pongT1, idx := 0 } : ticketRef)])] =
            none := by
          rw [alookup, if_neg (by omega : ¬ (0 = bucket))]
          rfl
        rw [hl]
      rw [hcand]
      simp only [Bool.false_eq_true, if_false]
      exact ih (bucket + 1) bucket (by omega)

/-- Claim C10, counterexample to the claim as stated: the store state
`strandedStore` is reachable through the ticket-store operations, yet
`nextRegisterableTicket` does not terminate on it for any fuel.  The
`lastBucketFetched == 0` sentinel in `addTicket` (ticket.go:418) conflates
"unset" with bucket 0: a ticket queued during the first minute of the
monotonic clock sits in bucket 0 while `lastBucketFetched` stays 0, and a
later `addTicket` resets `lastBucketFetched` to the current bucket (100),
stranding the bucket-0 reference below the scan's start; the scan then sees
a non-empty store but never a bucket at or above 100, and ascends forever. -/
theorem c10Stated_counterexample : ¬ c10Stated hashPf0 := by
  intro h
  obtain ⟨fuel, hf⟩ := h strandedStore stranded_reach 0
  have hnone : nextRegisterableTicket fuel strandedStore 0 = none := by
    rw [strandedStore_eq]
    have hcache : strandedD.nextTicketCached = none := rfl
    have hsh : strandedD.tickets =
        [(5, [(0, [({ t := pongT1, idx := 0 } : ticketRef)])])] := rfl
    have hlbf : strandedD.lastBucketFetched = 100 := rfl
    rw [nextRegisterableTicket, hcache, hsh, hlbf,
      stranded_scan fuel 100 100 (by omega)]
  rw [hnone] at hf
  exact absurd hf (by simp)

end TStore

namespace TStore

open S2P

/-- Claim C4, amended: whenever the balance guard does not fire,
`topicRadius.adjust` multiplies the radius by `1 + sign * mag` (then floors
and clamps to `[minRadius, maxRadius]`), where the step magnitude `mag` is
`adjustRatio = 1/500` once the topic is converged and the current
`adjustCooldown` otherwise — but the sign is `+1` exactly when the ticket's
registration wait `regTime[idx] - issueTime` exceeds `targetWaitTime`
(ticket.go:567-572), not when the issuing node lies inside the radius;
`isInRadius` only drives the `intExtBalance` bookkeeping and the
early-return guard. -/
theorem adjust_radius_eq (r : topicRadius) (L : ℕ) (tk : ticketRef) (minR : ℕ)
    (mS : Bool)
    (hguard : ¬ (r.intExtBalance *
      (if isInRadius r tk.t.nodePf false then (1 : ℚ) else -1) > 3)) :
    (r.adjust L tk minR mS).radius =
      (let sign : ℚ := if ((tk.t.regTime.getD tk.idx 0 : ℤ) - (tk.t.issueTime : ℤ))
          > (targetWaitTime : ℤ) then 1 else -1
       let mag : ℚ := if r.converged then adjustRatioQ else r.adjustCooldown
       let radQ : ℚ := (r.radius : ℚ) * (1 + sign * mag)
       if radQ > (maxRadius : ℚ) then maxRadius
       else max minR radQ.floor.toNat) := by
  simp only [topicRadius.adjust]
  rw [if_neg hguard]
  rw [apply_ite topicRadius.radius]
  simp only [ite_self]
  simp only [mul_ite]
  have hmax : ∀ a b : ℕ, max b a = if a < b then b else a := by
    intro a b
    by_cases h : a < b
    · rw [if_pos h]
      omega
    · rw [if_neg h]
      omega
  rw [hmax]

/-- Witness for `adjust_radius_eq` at the concrete input `c4radius`/`c4ref`
(balance 0, so the guard hypothesis holds). -/
theorem adjust_radius_eq_witness :
    ¬ (c4radius.intExtBalance *
      (if isInRadius c4radius c4ref.t.nodePf false then (1 : ℚ) else -1) > 3) ∧
    (c4radius.adjust 0 c4ref 0 false).radius =
      (let sign : ℚ := if ((c4ref.t.regTime.getD c4ref.idx 0 : ℤ) -
          (c4ref.t.issueTime : ℤ)) > (targetWaitTime : ℤ) then 1 else -1
       let mag : ℚ := if c4radius.converged then adjustRatioQ
                      else c4radius.adjustCooldown
       let radQ : ℚ := (c4radius.radius : ℚ) * (1 + sign * mag)
       if radQ > (maxRadius : ℚ) then maxRadius
       else max 0 radQ.floor.toNat) :=
  ⟨by norm_num [c4radius], adjust_radius_eq c4radius 0 c4ref 0 false
    (by norm_num [c4radius])⟩

/-- Claim C4, counterexample to the claim as stated: `c4ref`'s issuing node
lies inside `c4radius` (distance 0 < 10^6), so the claim predicts the radius
grows to `10^6 * (1 + 0.1) = 1100000`; but the ticket's registration wait is
0 ≤ targetWaitTime, so the code multiplies by `1 - 0.1` instead and the new
radius is 900000. -/
theorem adjust_sign_counterexample :
    isInRadius c4radius c4ref.t.nodePf false = true ∧
    (c4radius.radius : ℚ) * (1 + c4radius.adjustCooldown) = 1100000 ∧
    (c4radius.adjust 0 c4ref 0 false).radius = 900000 ∧
    (900000 : ℕ) ≠ 1100000 := by
  refine ⟨by norm_num [isInRadius, c4radius, c4ref],
    by norm_num [c4radius], ?_, by norm_num⟩
  simp only [topicRadius.adjust, c4radius, c4ref]
  norm_num [isInRadius, maxRadius, targetWaitTime, adjustRatioQ]
  rfl

end TStore
